import Mathlib

/-!
Verification of the date/time parsing subsystem of the string-input library.

The JavaScript sources are shallowly embedded: strings are lists of
characters, JavaScript numbers are exact rationals, fallible validators
return values in an Except monad.  The grammar matchers of the external
regex-repo package and the repository files missing from the source
snapshot (convert-month-name, get-timezone-offset, make-date-time-string,
the timestamp computation performed by the native JavaScript Date) are
modelled from the specification; everything else is transcribed from the
source files.
-/

set_option maxRecDepth 40000

namespace StringInput

/-! ## Character and digit helpers -/

def isDigitChar (c : Char) : Bool := 48 ≤ c.toNat && c.toNat ≤ 57

def digitVal (c : Char) : Nat := c.toNat - 48

def isAlphaChar (c : Char) : Bool :=
  ('a' ≤ c && c ≤ 'z') || ('A' ≤ c && c ≤ 'Z')

def toLowerChar (c : Char) : Char :=
  if 'A' ≤ c && c ≤ 'Z' then Char.ofNat (c.toNat + 32) else c

def lowerEq (l : List Char) (r : List Char) : Bool :=
  l.map toLowerChar == r

/-- whitespace recognized by the JavaScript String.trim -/
def isWsChar (c : Char) : Bool :=
  c = ' ' || c = '\t' || c = '\n' || c = '\r'

/-- model of the JavaScript String.prototype.trim -/
def jsTrim (l : List Char) : List Char :=
  ((l.dropWhile isWsChar).reverse.dropWhile isWsChar).reverse

/-- value of a list of decimal digit characters, read left to right -/
def parseNatDigits (ds : List Char) : Nat :=
  ds.foldl (fun a c => 10 * a + digitVal c) 0

/-- model of JavaScript parseInt on an optionally signed digit string -/
def jsParseInt : List Char → Int
  | [] => (parseNatDigits [] : Int)
  | c :: ds =>
    if c = '-' then -(parseNatDigits ds : Int)
    else if c = '+' then (parseNatDigits ds : Int)
    else (parseNatDigits (c :: ds) : Int)

/-! ## JavaScript number operations, modelled on exact rationals -/

/-- model of JavaScript Math.trunc (round toward zero) -/
def jsTrunc (q : ℚ) : ℤ := if 0 ≤ q then ⌊q⌋ else -⌊-q⌋

/-- model of the JavaScript remainder q % 1 (sign follows the dividend) -/
def jsMod1 (q : ℚ) : ℚ := q - (jsTrunc q : ℚ)

/-- model of JavaScript Math.round (round half toward positive infinity) -/
def jsRound (q : ℚ) : ℤ := ⌊q + 1 / 2⌋

/-- value of the JavaScript expression Number(quote 0. + ds + quote) -/
def fracFromDigits (ds : List Char) : ℚ :=
  (parseNatDigits ds : ℚ) / 10 ^ ds.length

/-! ## Proleptic Gregorian calendar (model of the JavaScript Date runtime)

The conversions between epoch days and civil dates follow the standard
algorithms used by JavaScript engines (Howard Hinnant's days_from_civil and
civil_from_days); they model the behaviour of the native Date object, which
is external to the repository. -/

def daysFromCivil (y m d : Int) : Int :=
  let y' := if m ≤ 2 then y - 1 else y
  let era := y' / 400
  let yoe := y' - era * 400
  let mp := if m ≤ 2 then m + 9 else m - 3
  let doy := (153 * mp + 2) / 5 + d - 1
  let doe := yoe * 365 + yoe / 4 - yoe / 100 + doy
  era * 146097 + doe - 719468

def civilFromDays (z0 : Int) : Int × Int × Int :=
  let z := z0 + 719468
  let era := z / 146097
  let doe := z - era * 146097
  let yoe := (doe - doe / 1460 + doe / 36524 - doe / 146096) / 365
  let y' := yoe + era * 400
  let doy := doe - (365 * yoe + yoe / 4 - yoe / 100)
  let mp := (5 * doy + 2) / 153
  let d := doy - (153 * mp + 2) / 5 + 1
  let m := if mp < 10 then mp + 3 else mp - 9
  let y := if m ≤ 2 then y' + 1 else y'
  (y, m, d)

/-- UTC field decomposition of an epoch-milliseconds value: the model of the
native Date accessors getUTCFullYear .. getUTCMilliseconds. -/
structure UtcFields where
  year : Int
  month : Int
  day : Int
  hours : Int
  minutes : Int
  seconds : Int
  ms : Int
deriving DecidableEq, Repr

def civilFromMillis (t : Int) : UtcFields :=
  let days := t / 86400000
  let rem := t - 86400000 * days
  let c := civilFromDays days
  { year := c.1, month := c.2.1, day := c.2.2
    hours := rem / 3600000
    minutes := rem % 3600000 / 60000
    seconds := rem % 60000 / 1000
    ms := rem % 1000 }

/-- decidable equality of results, for evaluating the validators on concrete
inputs -/
instance {ε α : Type} [DecidableEq ε] [DecidableEq α] : DecidableEq (Except ε α) :=
  fun x y =>
  match x, y with
  | .error a, .error b =>
    if h : a = b then .isTrue (by rw [h]) else .isFalse (by simp [h])
  | .ok a, .ok b =>
    if h : a = b then .isTrue (by rw [h]) else .isFalse (by simp [h])
  | .error _, .ok _ => .isFalse (by simp)
  | .ok _, .error _ => .isFalse (by simp)

/-! ## Argument names, errors and inputs -/

inductive Constraint
  | min
  | max
deriving DecidableEq, Repr

/-- name under which a validator reports errors; a recursively parsed bound
is reported under the derived constraint name (the source builds the string
name-quote-space-constraint-space-quote-max). -/
inductive CName
  | plain (s : String)
  | constraintOf (base : CName) (c : Constraint)
deriving DecidableEq, Repr

/-- issue descriptions carried by ArgumentInvalidError -/
inductive Issue
  | noRecognizableTime
  | noRecognizableDate
  | ambiguousDate (hintUse4DigitYear : Bool)
  | notRecognizedAsTime
  | eodDisallowedTOD
  | eodDisallowedDT
  | weekDatesUnsupported
  | ordinalDatesUnsupported
  | hookIssue (s : String)
  | failedCustomValidation (which : String)
  | lexAfter
  | lexBefore
  | mustEndWith
  | mustStartWith
  | mustMatchRe
  | maxLengthExceeded
  | minLengthNotMet
  | notOneOf
deriving DecidableEq, Repr

/-- errors thrown by the validators (standard-error-set classes) -/
inductive Err
  | argumentMissing (name : CName) (fromRequiredCheck : Bool)
  | argumentTypeError (name : CName)
  | argumentInvalid (name : CName) (issue : Issue)
  | argumentOutOfRange (name : CName) (c : Constraint)
  | nonconvertibleType (name : CName) (c : Constraint)
deriving DecidableEq, Repr

/-- a JavaScript value handed to a validator as input -/
inductive JsInput
  | undef
  | nullv
  | num (q : ℚ)
  | str (s : List Char)
deriving DecidableEq, Repr

/-- result of a custom validation hook: true, a string, or anything else -/
inductive HookRes
  | retTrue
  | retStr (s : String)
  | retOther
deriving DecidableEq, Repr

/-! ## Grammar match records

One record per grammar matcher of the external regex-repo package, holding
the captured sub-fields the extractors read.  Fields correspond to the
numbered capture groups used by the source. -/

structure Time12Match where
  hh : List Char
  mm : List Char
  ss : Option (List Char)
  fs : Option (List Char)
  ampm : List Char
  tz : Option (List Char)
deriving DecidableEq, Repr

structure Time24Match where
  eod : Option (List Char)
  hh : Option (List Char)
  mm : Option (List Char)
  ss : Option (List Char)
  fs : Option (List Char)
  tz : Option (List Char)
deriving DecidableEq, Repr

structure MilTimeMatch where
  eod : Option (List Char)
  hh : Option (List Char)
  mm : Option (List Char)
  tz : Option (List Char)
deriving DecidableEq, Repr

structure UsDateMatch where
  month : List Char
  day : List Char
  ce : List Char
  year : List Char
deriving DecidableEq, Repr

structure IntlDateMatch where
  ce : List Char
  year : List Char
  month : List Char
  day : List Char
deriving DecidableEq, Repr

structure Rfc2822DayMatch where
  day : List Char
  monthName : List Char
  year : List Char
deriving DecidableEq, Repr

structure Rfc2822DateTimeMatch where
  day : List Char
  monthName : List Char
  year : List Char
  hh : List Char
  mm : List Char
  ss : Option (List Char)
  tz : List Char
deriving DecidableEq, Repr

structure Iso8601Match where
  year : List Char
  month : Option (List Char)
  day : Option (List Char)
  week : Option (List Char)
  ordinal : Option (List Char)
  eod : Option (List Char)
  hours : Option (List Char)
  fracHours : Option (List Char)
  minutes : Option (List Char)
  fracMinutes : Option (List Char)
  seconds : Option (List Char)
  fracSeconds : Option (List Char)
  tz : Option (List Char)
deriving DecidableEq, Repr

/-! ## Shared scanning helpers -/

def isWordChar (c : Char) : Bool := isDigitChar c || isAlphaChar c || c = '_'

/-- longest run of decimal digits at the front, and the remainder -/
def readDigits : List Char → List Char × List Char
  | [] => ([], [])
  | c :: cs =>
    if isDigitChar c then
      let p := readDigits cs
      (c :: p.1, p.2)
    else ([], c :: cs)

/-- exactly two digit characters -/
def read2d : List Char → Option (List Char × List Char)
  | a :: b :: r =>
    if isDigitChar a && isDigitChar b then some ([a, b], r) else none
  | _ => none

/-- a run of one or more digits whose length lies between lo and hi, and
which is maximal (the next character is not a digit) -/
def readDigitsLen (lo hi : Nat) (l : List Char) : Option (List Char × List Char) :=
  let p := readDigits l
  if lo ≤ p.1.length && p.1.length ≤ hi then some p else none

def skipWs (l : List Char) : List Char := l.dropWhile isWsChar

/-- next characters begin an AM/PM indicator (used as a negative lookahead
to keep the 24-hour grammar from matching a 12-hour time) -/
def ampmAhead (l : List Char) : Bool :=
  match skipWs l with
  | a :: b :: _ => (lowerEq [a, b] ['a', 'm'] || lowerEq [a, b] ['p', 'm'])
  | _ => false

/-- a timezone token: Z or a sign followed by HHMM or HH:MM -/
def readTz : List Char → Option (List Char × List Char)
  | 'Z' :: r => some (['Z'], r)
  | 'z' :: r => some (['z'], r)
  | s :: a :: b :: ':' :: c :: d :: r =>
    if (s = '+' || s = '-') && isDigitChar a && isDigitChar b
        && isDigitChar c && isDigitChar d then
      some ([s, a, b, ':', c, d], r)
    else none
  | s :: a :: b :: c :: d :: r =>
    if (s = '+' || s = '-') && isDigitChar a && isDigitChar b
        && isDigitChar c && isDigitChar d then
      some ([s, a, b, c, d], r)
    else none
  | _ => none

/-- optional whitespace followed by an optional timezone token whose end
falls on a word boundary -/
def readOptTz (l : List Char) : Option (List Char) × List Char :=
  match readTz (skipWs l) with
  | some (tz, r) =>
    match r with
    | [] => (some tz, r)
    | c :: _ => if isWordChar c then (none, l) else (some tz, r)
  | none => (none, l)

/-- generic leftmost-match scan: tryAt receives the reversed prefix before
the current position and the remainder of the input -/
def scanFirst (tryAt : List Char → List Char → Option α) :
    List Char → List Char → Option α
  | pre, [] => tryAt pre []
  | pre, c :: cs =>
    match tryAt pre (c :: cs) with
    | some r => some r
    | none => scanFirst tryAt (c :: pre) cs

/-- word boundary at the junction: the adjacent character, if any, is not a
word character (works on a remainder as well as on a reversed prefix) -/
def wordBoundary : List Char → Bool
  | [] => true
  | c :: _ => !isWordChar c

/-! ## Time grammar matchers

Modelled from the spec: the regex-repo patterns timeReString,
twentyFourHourTimeReString and militaryTimeReString are an external
dependency; section 6 of the spec fixes the recognized forms (12-hour with
AM/PM suffix, 24-hour HH:MM with optional seconds and fraction, military
HHMM, the end-of-day sentinel 24:00, 24:00:00 and 2400) and section 4.2
fixes their mutual exclusivity by construction. -/

structure TimeBase where
  hh : List Char
  mm : List Char
  ss : Option (List Char)
  fs : Option (List Char)
deriving DecidableEq, Repr

/-- one or two hour digits followed by a colon -/
def readHourColon : List Char → Option (List Char × List Char)
  | a :: ':' :: r => if isDigitChar a then some ([a], r) else none
  | a :: b :: ':' :: r =>
    if isDigitChar a && isDigitChar b then some ([a, b], r) else none
  | _ => none

/-- an optional decimal point followed by fraction digits -/
def readFrac : List Char → Option (List Char) × List Char
  | [] => (none, [])
  | c :: r =>
    if c = '.' then
      match readDigitsLen 1 1000 r with
      | some (ds, r2) => (some ds, r2)
      | none => (none, c :: r)
    else (none, c :: r)

/-- an optional seconds group with optional fraction -/
def readSecPart (l : List Char) : Option (List Char) × Option (List Char) × List Char :=
  match l with
  | ':' :: r =>
    (match read2d r with
     | some (ss, r2) =>
       if 60 ≤ parseNatDigits ss then (none, none, l)
       else
         let f := readFrac r2
         (some ss, f.1, f.2)
     | none => (none, none, l))
  | _ => (none, none, l)

def parseTimeBase (l : List Char) : Option (TimeBase × List Char) :=
  (readHourColon l).bind fun p =>
  (read2d p.2).bind fun q =>
  if 60 ≤ parseNatDigits q.1 then none
  else
    let s := readSecPart q.2
    some ({ hh := p.1, mm := q.1, ss := s.1, fs := s.2.1 }, s.2.2)

/-- 12-hour time fragment: base time, optional spaces, an AM/PM indicator -/
def parseTime12At (l : List Char) : Option (Time12Match × List Char) :=
  (parseTimeBase l).bind fun p =>
  let h := parseNatDigits p.1.hh
  if 1 ≤ h && h ≤ 12 then
    match skipWs p.2 with
    | a :: b :: r2 =>
      if (lowerEq [a, b] ['a', 'm'] || lowerEq [a, b] ['p', 'm'])
          && wordBoundary r2 then
        some ({ hh := p.1.hh, mm := p.1.mm, ss := p.1.ss, fs := p.1.fs
                ampm := [a, b], tz := none }, r2)
      else none
    | _ => none
  else none

/-- the literal end-of-day sentinel 24:00 with optional :00 -/
def parseEod24 : List Char → Option (List Char × List Char)
  | a :: b :: c :: d :: e :: r =>
    if a = '2' && b = '4' && c = ':' && d = '0' && e = '0' then
      match r with
      | x :: y :: z :: r2 =>
        if x = ':' && y = '0' && z = '0' then
          some (['2', '4', ':', '0', '0', ':', '0', '0'], r2)
        else some (['2', '4', ':', '0', '0'], r)
      | _ => some (['2', '4', ':', '0', '0'], r)
    else none
  | _ => none

/-- 24-hour time fragment: the end-of-day sentinel or a base time with hour
at most 23, not followed by an AM/PM indicator -/
def parseTime24At (l : List Char) : Option (Time24Match × List Char) :=
  match parseEod24 l with
  | some (e, r) =>
    if ampmAhead r then none
    else some ({ eod := some e, hh := none, mm := none, ss := none
                 fs := none, tz := none }, r)
  | none =>
    (parseTimeBase l).bind fun p =>
    if parseNatDigits p.1.hh ≤ 23 && !ampmAhead p.2 then
      some ({ eod := none, hh := some p.1.hh, mm := some p.1.mm
              ss := p.1.ss, fs := p.1.fs, tz := none }, p.2)
    else none

/-- military time fragment: four contiguous digits ending on a word
boundary; 2400 is the end-of-day sentinel -/
def parseMilAt (l : List Char) : Option (MilTimeMatch × List Char) :=
  match l with
  | a :: b :: c :: d :: r =>
    if isDigitChar a && isDigitChar b && isDigitChar c && isDigitChar d
        && wordBoundary r then
      if [a, b, c, d] = ['2', '4', '0', '0'] then
        some ({ eod := some ['2', '4', '0', '0'], hh := none, mm := none
                tz := none }, r)
      else if parseNatDigits [a, b] ≤ 23 && parseNatDigits [c, d] ≤ 59 then
        some ({ eod := none, hh := some [a, b], mm := some [c, d]
                tz := none }, r)
      else none
    else none
  | _ => none

/-! ## Whole-input time matchers (the anchored regex-repo xRe forms used by
the TimeOfDay validator) -/

def matchTime12Full (s : List Char) : Option Time12Match :=
  match parseTime12At s with
  | some (m, r) => if r = [] then some m else none
  | none => none

def matchTime24Full (s : List Char) : Option Time24Match :=
  match parseTime24At s with
  | some (m, r) => if r = [] then some m else none
  | none => none

def matchMilFull (s : List Char) : Option MilTimeMatch :=
  match parseMilAt s with
  | some (m, r) => if r = [] then some m else none
  | none => none

/-! ## Searching time matchers as composed in process-idiomatic-date-time:
each fragment optionally followed by whitespace and a timezone token, the
military fragment guarded by the lookarounds written in the source. -/

/-- lookbehind written in the source for military time: not preceded by a
dot, slash, sign or word character, and not preceded by three letters plus
whitespace (which would be the tail of a month name before a year) -/
def milLookbehind (pre : List Char) : Bool :=
  (match pre with
   | [] => true
   | c :: _ => !(c = '.' || c = '/' || c = '+' || c = '-' || isWordChar c))
  && !(match pre with
      | c :: _ =>
        isWsChar c &&
          (match pre.dropWhile isWsChar with
           | x :: y :: z :: _ => isAlphaChar x && isAlphaChar y && isAlphaChar z
           | _ => false)
      | [] => false)

def tryMilAt (pre rest : List Char) : Option MilTimeMatch :=
  if milLookbehind pre then
    (parseMilAt rest).bind fun p =>
    match p.2 with
    | c :: _ =>
      if c = '.' || c = '/' || c = '-' then none
      else some { p.1 with tz := (readOptTz p.2).1 }
    | [] => some p.1
  else none

def searchMilTime (s : List Char) : Option MilTimeMatch :=
  scanFirst tryMilAt [] s

def tryTime12At (pre rest : List Char) : Option Time12Match :=
  if wordBoundary pre then
    (parseTime12At rest).map fun p => { p.1 with tz := (readOptTz p.2).1 }
  else none

def searchTime12 (s : List Char) : Option Time12Match :=
  scanFirst tryTime12At [] s

def tryTime24At (pre rest : List Char) : Option Time24Match :=
  if wordBoundary pre then
    (parseTime24At rest).map fun p => { p.1 with tz := (readOptTz p.2).1 }
  else none

def searchTime24 (s : List Char) : Option Time24Match :=
  scanFirst tryTime24At [] s

/-! ## Date grammar matchers

Modelled from the spec: regex-repo patterns usDateReString,
intlDateReString and rfc2822DayReString are an external dependency; the
spec fixes US dates as MM/DD/YYYY (also with dot or dash separators, an
optional sign before the year), international dates as YYYY/MM/DD with an
optional leading sign, and RFC-2822 style days as D Mon YYYY with a
three-letter month name.  The US and international years are one to four
digits, which is what makes short-year forms ambiguous. -/

def monthTable : List (List Char × Int) :=
  [(['j', 'a', 'n'], 1), (['f', 'e', 'b'], 2), (['m', 'a', 'r'], 3),
   (['a', 'p', 'r'], 4), (['m', 'a', 'y'], 5), (['j', 'u', 'n'], 6),
   (['j', 'u', 'l'], 7), (['a', 'u', 'g'], 8), (['s', 'e', 'p'], 9),
   (['o', 'c', 't'], 10), (['n', 'o', 'v'], 11), (['d', 'e', 'c'], 12)]

/-- Modelled from the spec: the repository file
lib/date-time/convert-month-name is not in the source snapshot; per the
spec the month comes from a 3-letter month name table, case-insensitively. -/
def convertMonthName (name : List Char) : Int :=
  match monthTable.find? (fun p => lowerEq name p.1) with
  | some p => p.2
  | none => 0

def isMonthName (name : List Char) : Bool :=
  (monthTable.find? (fun p => lowerEq name p.1)).isSome

def readSep : List Char → Option (Char × List Char)
  | c :: r => if c = '/' || c = '.' || c = '-' then some (c, r) else none
  | _ => none

def parseUsDateAt (l : List Char) : Option (UsDateMatch × List Char) :=
  (readDigitsLen 1 2 l).bind fun p1 =>
  (readSep p1.2).bind fun s1 =>
  (readDigitsLen 1 2 s1.2).bind fun p2 =>
  (readSep p2.2).bind fun s2 =>
  if s1.1 = s2.1 then
    let ce : List Char × List Char :=
      match s2.2 with
      | c :: r => if c = '+' || c = '-' then ([c], r) else ([], s2.2)
      | [] => ([], s2.2)
    (readDigitsLen 1 4 ce.2).bind fun p3 =>
    if wordBoundary p3.2 then
      some ({ month := p1.1, day := p2.1, ce := ce.1, year := p3.1 }, p3.2)
    else none
  else none

def tryUsDateAt (pre rest : List Char) : Option UsDateMatch :=
  if wordBoundary pre then (parseUsDateAt rest).map (·.1) else none

def searchUsDate (s : List Char) : Option UsDateMatch :=
  scanFirst tryUsDateAt [] s

def parseIntlDateAt (l : List Char) : Option (IntlDateMatch × List Char) :=
  let ce : List Char × List Char :=
    match l with
    | c :: r => if c = '+' || c = '-' then ([c], r) else ([], l)
    | [] => ([], l)
  (readDigitsLen 1 4 ce.2).bind fun p1 =>
  (readSep p1.2).bind fun s1 =>
  (readDigitsLen 1 2 s1.2).bind fun p2 =>
  (readSep p2.2).bind fun s2 =>
  if s1.1 = s2.1 then
    (readDigitsLen 1 2 s2.2).bind fun p3 =>
    if wordBoundary p3.2 then
      some ({ ce := ce.1, year := p1.1, month := p2.1, day := p3.1 }, p3.2)
    else none
  else none

/-- the source anchors the international date at the start of the input or
after a space (a word boundary would sit inside a leading minus sign) -/
def tryIntlDateAt (pre rest : List Char) : Option IntlDateMatch :=
  if (match pre with | [] => true | c :: _ => c = ' ') then
    (parseIntlDateAt rest).map (·.1)
  else none

def searchIntlDate (s : List Char) : Option IntlDateMatch :=
  scanFirst tryIntlDateAt [] s

/-- at least one whitespace character, then the rest -/
def readWs1 (l : List Char) : Option (List Char) :=
  match l with
  | c :: r => if isWsChar c then some (skipWs r) else none
  | [] => none

def parseRfcDayAt (l : List Char) : Option (Rfc2822DayMatch × List Char) :=
  (readDigitsLen 1 2 l).bind fun p1 =>
  (readWs1 p1.2).bind fun r1 =>
  match r1 with
  | x :: y :: z :: r2 =>
    if isMonthName [x, y, z] && !(match r2 with
        | c :: _ => isAlphaChar c
        | [] => false) then
      (readWs1 r2).bind fun r3 =>
      (readDigitsLen 1 4 r3).bind fun p2 =>
      if wordBoundary p2.2 then
        some ({ day := p1.1, monthName := [x, y, z], year := p2.1 }, p2.2)
      else none
    else none
  | _ => none

def tryRfcDayAt (pre rest : List Char) : Option Rfc2822DayMatch :=
  if wordBoundary pre then (parseRfcDayAt rest).map (·.1) else none

def searchRfcDay (s : List Char) : Option Rfc2822DayMatch :=
  scanFirst tryRfcDayAt [] s

/-! ## ISO 8601 matcher

Modelled from the spec: regex-repo iso8601DateTimeRe is an external
dependency.  Section 6 of the spec fixes the recognized form
YYYY-MM-DD [T or space] HH[:MM[:SS[.fff]]] with fractional-hour and
fractional-minute alternatives and an optional timezone token; week-of-year
and ordinal forms are matched by the real pattern only to be rejected by
the extractor, and are not modelled (the corresponding capture fields stay
empty). -/

structure IsoTimePart where
  eod : Option (List Char) := none
  hours : Option (List Char) := none
  fracHours : Option (List Char) := none
  minutes : Option (List Char) := none
  fracMinutes : Option (List Char) := none
  seconds : Option (List Char) := none
  fracSeconds : Option (List Char) := none
deriving DecidableEq, Repr

def isoTimePart (l : List Char) : Option (IsoTimePart × List Char) :=
  match parseEod24 l with
  | some (e, r) => some ({ eod := some e }, r)
  | none =>
    (read2d l).bind fun p =>
    if parseNatDigits p.1 ≤ 23 then
      match p.2 with
      | c2 :: r2 =>
        if c2 = '.' then
          (readDigitsLen 1 1000 r2).bind fun q =>
          some ({ hours := some p.1, fracHours := some q.1 }, q.2)
        else if c2 = ':' then
          (read2d r2).bind fun q =>
          if parseNatDigits q.1 ≤ 59 then
            match q.2 with
            | c3 :: r4 =>
              if c3 = '.' then
                (readDigitsLen 1 1000 r4).bind fun w =>
                some ({ hours := some p.1, minutes := some q.1
                        fracMinutes := some w.1 }, w.2)
              else if c3 = ':' then
                (read2d r4).bind fun w =>
                if parseNatDigits w.1 ≤ 59 then
                  let f := readFrac w.2
                  some ({ hours := some p.1, minutes := some q.1
                          seconds := some w.1, fracSeconds := f.1 }, f.2)
                else none
              else some ({ hours := some p.1, minutes := some q.1 }, q.2)
            | [] => some ({ hours := some p.1, minutes := some q.1 }, q.2)
          else none
        else some ({ hours := some p.1 }, p.2)
      | [] => some ({ hours := some p.1 }, p.2)
    else none

def isoMatchFull (s : List Char) : Option Iso8601Match :=
  let sg : List Char × List Char :=
    match s with
    | c :: r => if c = '+' || c = '-' then ([c], r) else ([], s)
    | [] => ([], s)
  (readDigitsLen 4 6 sg.2).bind fun p1 =>
  match p1.2 with
  | c1 :: r2 =>
    if c1 = '-' then
      (read2d r2).bind fun mo =>
      match mo.2 with
      | c2 :: r4 =>
        if c2 = '-' then
          (read2d r4).bind fun dy =>
          match dy.2 with
          | sep :: r6 =>
            if sep = 'T' || sep = 't' || sep = ' ' then
              (isoTimePart r6).bind fun tp =>
              let tz := readOptTz tp.2
              if tz.2 = [] then
                some { year := sg.1 ++ p1.1, month := some mo.1, day := some dy.1
                       week := none, ordinal := none
                       eod := tp.1.eod, hours := tp.1.hours
                       fracHours := tp.1.fracHours, minutes := tp.1.minutes
                       fracMinutes := tp.1.fracMinutes, seconds := tp.1.seconds
                       fracSeconds := tp.1.fracSeconds, tz := tz.1 }
              else none
            else none
          | [] => none
        else none
      | [] => none
    else none
  | [] => none

/-! ## RFC 2822 date-time matcher

Modelled from the spec: regex-repo rfc2822DateRe is an external dependency;
RFC 2822 date-times are day, three-letter month name, year, HH:MM with
optional seconds, and a numeric zone. -/

def readTzNum : List Char → Option (List Char × List Char)
  | s :: a :: b :: c :: d :: r =>
    if (s = '+' || s = '-') && isDigitChar a && isDigitChar b
        && isDigitChar c && isDigitChar d then
      some ([s, a, b, c, d], r)
    else none
  | _ => none

def matchRfc2822DateTimeFull (s : List Char) : Option Rfc2822DateTimeMatch :=
  (readDigitsLen 1 2 s).bind fun p1 =>
  (readWs1 p1.2).bind fun r1 =>
  match r1 with
  | x :: y :: z :: r2 =>
    if isMonthName [x, y, z] then
      (readWs1 r2).bind fun r3 =>
      (readDigitsLen 4 4 r3).bind fun p2 =>
      (readWs1 p2.2).bind fun r4 =>
      (read2d r4).bind fun hh =>
      match hh.2 with
      | ':' :: r5 =>
        (read2d r5).bind fun mm =>
        let sp : Option (List Char) × List Char :=
          match mm.2 with
          | ':' :: r6 =>
            (match read2d r6 with
             | some (ss, r7) => (some ss, r7)
             | none => (none, mm.2))
          | _ => (none, mm.2)
        (readWs1 sp.2).bind fun r8 =>
        (readTzNum r8).bind fun tzp =>
        if tzp.2 = [] then
          some { day := p1.1, monthName := [x, y, z], year := p2.1
                 hh := hh.1, mm := mm.1, ss := sp.1, tz := tzp.1 }
        else none
      | _ => none
    else none
  | _ => none

/-! ## Timezone resolver -/

/-- Modelled from the spec: the repository file
lib/date-time/get-timezone-offset is not in the source snapshot.  Per
section 4.4 of the spec an explicit token (Z or a signed HHMM / HH:MM
offset) resolves to a signed minute count, and an absent token leaves the
offset undefined. -/
def getTimezoneOffset : Option (List Char) → Option Int
  | none => none
  | some tok =>
    match tok with
    | ['Z'] => some 0
    | ['z'] => some 0
    | [s, a, b, ':', c, d] =>
      some ((if s = '-' then -1 else 1)
        * ((10 * (digitVal a : Int) + (digitVal b : Int)) * 60
            + (10 * (digitVal c : Int) + (digitVal d : Int))))
    | [s, a, b, c, d] =>
      some ((if s = '-' then -1 else 1)
        * ((10 * (digitVal a : Int) + (digitVal b : Int)) * 60
            + (10 * (digitVal c : Int) + (digitVal d : Int))))
    | _ => none

/-! ## The Temporal Tuple and the component extractors -/

/-- the canonical 9-field intermediate representation -/
structure TemporalTuple where
  year : Int
  month : Int
  day : Int
  isEod : Bool
  hours : Int
  minutes : Int
  seconds : Int
  fracSeconds : ℚ
  tzOffset : Option Int
deriving DecidableEq, Repr

/-- first operand of a JavaScript a || b || default chain over optional
captured strings, where both undefined and the empty string are falsy -/
def firstTruthy (d : List Char) : List (Option (List Char)) → List Char
  | [] => d
  | x :: rest =>
    match x with
    | some s => if s = [] then firstTruthy d rest else s
    | none => firstTruthy d rest

/-- first defined value of a JavaScript a?.x || b?.x chain over timezone
captures (captured tokens are never empty) -/
def firstSomeTz : List (Option (List Char)) → Option (List Char)
  | [] => none
  | some s :: _ => some s
  | none :: rest => firstSomeTz rest

/-- transcription of lib/date-time/process-idiomatic-date-time.mjs -/
def processIdiomaticDateTime (name : CName) (input : List Char)
    (localTimezone : Option (List Char)) : Except Err TemporalTuple :=
  let milTimeMatch := searchMilTime input
  let timeMatch := searchTime12 input
  let twentyFourHourTimeMatch := searchTime24 input
  let timeMatches :=
    (if milTimeMatch.isSome then 1 else 0)
    + (if timeMatch.isSome then 1 else 0)
    + (if twentyFourHourTimeMatch.isSome then 1 else 0)
  if timeMatches = 0 then
    .error (.argumentInvalid name .noRecognizableTime)
  else
    let rfc2822DayMatch := searchRfcDay input
    let usDateMatch := searchUsDate input
    let intlDateMatch := searchIntlDate input
    let dayMatches :=
      (if rfc2822DayMatch.isSome then 1 else 0)
      + (if usDateMatch.isSome then 1 else 0)
      + (if intlDateMatch.isSome then 1 else 0)
    if dayMatches = 0 then
      .error (.argumentInvalid name .noRecognizableDate)
    else if 1 < dayMatches then
      .error (.argumentInvalid name (.ambiguousDate true))
    else
      let ceIndicator :=
        firstTruthy [] [usDateMatch.map (·.ce), intlDateMatch.map (·.ce)]
      let year := jsParseInt (ceIndicator ++
        firstTruthy [] [rfc2822DayMatch.map (·.year), usDateMatch.map (·.year),
          intlDateMatch.map (·.year)])
      let month :=
        match rfc2822DayMatch with
        | some m => convertMonthName m.monthName
        | none =>
          jsParseInt (firstTruthy []
            [usDateMatch.map (·.month), intlDateMatch.map (·.month)])
      let day := jsParseInt (firstTruthy []
        [rfc2822DayMatch.map (·.day), usDateMatch.map (·.day),
          intlDateMatch.map (·.day)])
      let isEOD :=
        (milTimeMatch.bind (·.eod)).isSome
        || (twentyFourHourTimeMatch.bind (·.eod)).isSome
      let hmsf : Int × Int × Int × ℚ :=
        if isEOD then (24, 0, 0, 0)
        else
          let hours0 := jsParseInt (firstTruthy []
            [milTimeMatch.bind (·.hh), timeMatch.map (·.hh),
              twentyFourHourTimeMatch.bind (·.hh)])
          let hours :=
            match timeMatch with
            | some t =>
              let h := hours0 + (if lowerEq t.ampm ['a', 'm'] then 0 else 12)
              if h = 24 then 0 else h
            | none => hours0
          let minutes := jsParseInt (firstTruthy []
            [milTimeMatch.bind (·.mm), timeMatch.map (·.mm),
              twentyFourHourTimeMatch.bind (·.mm)])
          let seconds := jsParseInt (firstTruthy ['0']
            [timeMatch.bind (·.ss), twentyFourHourTimeMatch.bind (·.ss)])
          let fracSeconds := fracFromDigits (firstTruthy ['0']
            [timeMatch.bind (·.fs), twentyFourHourTimeMatch.bind (·.fs)])
          (hours, minutes, seconds, fracSeconds)
      let timezone := firstSomeTz
        [milTimeMatch.bind (·.tz), timeMatch.bind (·.tz),
          twentyFourHourTimeMatch.bind (·.tz)] |>.orElse (fun _ => localTimezone)
      let timezoneOffset := getTimezoneOffset timezone
      .ok { year := year, month := month, day := day, isEod := isEOD
            hours := hmsf.1, minutes := hmsf.2.1, seconds := hmsf.2.2.1
            fracSeconds := hmsf.2.2.2, tzOffset := timezoneOffset }

/-- the precision bound used by the source for fractional seconds -/
def fracSecondsPrecision : ℚ := 100000

/-- transcription of roundFracSeconds from
lib/date-time/process-iso-8601-date-time.mjs -/
def roundFracSeconds (realSeconds : ℚ) : ℚ :=
  (jsRound (jsMod1 realSeconds * fracSecondsPrecision) : ℚ) / fracSecondsPrecision

/-- model of parseInt applied to an optional capture with a NaN-free
default (the guarded uses below only read captures their grammar defines) -/
def parseCapture (c : Option (List Char)) : Int :=
  (c.map jsParseInt).getD 0

/-- value of the JavaScript expression parseInt(capture) || dflt, where an
absent capture (NaN) and a zero value both fall back to the default -/
def jsNumOr (x : Option Int) (dflt : Int) : Int :=
  match x with
  | some v => if v = 0 then dflt else v
  | none => dflt

/-- transcription of processISO8601DateTime from
lib/date-time/process-iso-8601-date-time.mjs -/
def processISO8601DateTime (name : CName) (m : Iso8601Match)
    (localTimezone : Option (List Char)) : Except Err TemporalTuple :=
  if m.week.isSome then
    .error (.argumentInvalid name .weekDatesUnsupported)
  else if m.ordinal.isSome then
    .error (.argumentInvalid name .ordinalDatesUnsupported)
  else
    let year := jsParseInt m.year
    let month := jsNumOr (m.month.map jsParseInt) 1
    let day := jsNumOr (m.day.map jsParseInt) 1
    let isEod := m.eod.isSome
    let hours := if isEod then 24 else parseCapture m.hours
    let msf : Int × Int × ℚ :=
      if m.fracHours = none && m.minutes = none && m.seconds = none then
        (0, 0, 0)
      else if h : m.fracHours.isSome then
        let fracHours := fracFromDigits (m.fracHours.get h)
        let realMinutes := 60 * fracHours
        let minutes := jsTrunc realMinutes
        let fracMinutes := jsMod1 realMinutes
        let realSeconds := 60 * fracMinutes
        let seconds := jsTrunc realSeconds
        (minutes, seconds, roundFracSeconds realSeconds)
      else
        let minutes := parseCapture m.minutes
        if m.fracMinutes = none && m.seconds = none then
          (minutes, 0, 0)
        else if h : m.fracMinutes.isSome then
          let fracMinutes := fracFromDigits (m.fracMinutes.get h)
          let realSeconds := 60 * fracMinutes
          let seconds := jsTrunc realSeconds
          (minutes, seconds, roundFracSeconds realSeconds)
        else
          let seconds := parseCapture m.seconds
          let fracSeconds := (m.fracSeconds.map fracFromDigits).getD (0 : ℚ)
          (minutes, seconds, fracSeconds)
    let timezone := m.tz.orElse (fun _ => localTimezone)
    let timezoneOffset := getTimezoneOffset timezone
    .ok { year := year, month := month, day := day, isEod := isEod
          hours := hours, minutes := msf.1, seconds := msf.2.1
          fracSeconds := msf.2.2, tzOffset := timezoneOffset }

/-- Modelled from the spec: the repository file
lib/date-time/process-rfc-2822-date-time is not in the source snapshot.
Per section 4.3 of the spec the month comes from the case-insensitive
3-letter name table and day and year are numeric; RFC 2822 carries its own
time and numeric zone. -/
def processRFC2822DateTime (m : Rfc2822DateTimeMatch)
    (localTimezone : Option (List Char)) : TemporalTuple :=
  { year := jsParseInt m.year
    month := convertMonthName m.monthName
    day := jsParseInt m.day
    isEod := false
    hours := jsParseInt m.hh
    minutes := jsParseInt m.mm
    seconds := parseCapture m.ss
    fracSeconds := 0
    tzOffset := getTimezoneOffset ((some m.tz).orElse (fun _ => localTimezone)) }

/-! ## Value assembly -/

/-- decimal digit characters of a natural number, most significant first -/
def natChars (k : Nat) : List Char :=
  (Nat.digits 10 k).reverse.map (fun d => Char.ofNat (48 + d))

def padZeros (n : Nat) (ds : List Char) : List Char :=
  List.replicate (n - ds.length) '0' ++ ds

/-- model of the JavaScript rendering String(z) of an integer -/
def intChars (z : Int) : List Char :=
  if z < 0 then '-' :: natChars z.natAbs else natChars z.toNat

/-- model of String(z).padStart(n, zero) -/
def padInt (n : Nat) (z : Int) : List Char :=
  padZeros n (intChars z)

/-- decimal rendering of a fractional value in [0,1): a dot followed by the
digits, empty when the value is zero (the canonical form omits a zero
fraction) -/
def renderFrac (q : ℚ) : List Char :=
  if q = 0 then []
  else
    match (List.range 41).find? (fun n => (q * 10 ^ n).den = 1) with
    | some n => '.' :: padZeros n (natChars (q * 10 ^ n).num.toNat)
    | none => []

/-- Modelled from the spec: the repository file
lib/date-time/make-date-time-string is not in the source snapshot.  Per
section 4.5 of the spec the canonical form is YYYY-MM-DD HH:MM:SS.fff with
the fraction omitted when zero, followed by the timezone token (the failure
messages recorded in the test suite show a space before the token). -/
def makeDateTimeString (y mo d h mi s : Int) (frac : ℚ) (tz : List Char) : List Char :=
  padInt 4 y ++ '-' :: padInt 2 mo ++ '-' :: padInt 2 d
    ++ ' ' :: padInt 2 h ++ ':' :: padInt 2 mi ++ ':' :: padInt 2 s
    ++ renderFrac frac ++ (if tz = [] then [] else ' ' :: tz)

/-- Modelled from the spec: the repository file
lib/date-time/convert-timezone-offset-to-string is not in the source
snapshot.  A defined offset renders as a signed HHMM token and an undefined
offset renders as the empty token (the canonical string is then parsed in
the runtime's local timezone). -/
def convertTimezoneOffsetToString : Option Int → List Char
  | none => []
  | some v =>
    (if v < 0 then '-' else '+') :: (padInt 2 (v.natAbs / 60) ++ padInt 2 (v.natAbs % 60))

/-- model of the timestamp obtained by parsing the canonical string with the
native Date: epoch milliseconds of the tuple's civil fields, shifted by the
tuple's offset, or by the runtime's local offset when the tuple has none -/
def millisFromTuple (localOff : Int) (t : TemporalTuple) : ℚ :=
  ((daysFromCivil t.year t.month t.day * 86400000
      + t.hours * 3600000 + t.minutes * 60000 + t.seconds * 1000
      - (t.tzOffset.getD localOff) * 60000 : Int) : ℚ)
    + t.fracSeconds * 1000

/-- the public Temporal Value: the tuple plus the comparison timestamp the
source memoizes (valueOf) -/
structure DTValue where
  tuple : TemporalTuple
  ts : ℚ
deriving DecidableEq, Repr

/-- transcription of createValue from date-time.mjs -/
def createValue (localOff : Int) (t : TemporalTuple) : DTValue :=
  { tuple := t, ts := millisFromTuple localOff t }

/-! ## Standard checks and shared validation plumbing -/

/-- transcription of lib/type-checks.mjs -/
def typeChecks (name : CName) (input : JsInput) : Except Err (List Char) :=
  match input with
  | .undef => .error (.argumentMissing name false)
  | .nullv => .error (.argumentMissing name false)
  | .num _ => .error (.argumentTypeError name)
  | .str s => .ok s

/-- transcription of lib/check-required.mjs -/
def checkRequired (name : CName) (required : Bool) (input : List Char) : Except Err Unit :=
  if required && input = [] then .error (.argumentMissing name true) else .ok ()

/-- transcription of lib/standard-checks.mjs: type check, trim, required
check, returning the trimmed input -/
def standardChecks (name : CName) (required : Bool) (input : JsInput) : Except Err (List Char) :=
  (typeChecks name input).bind fun s =>
  let t := jsTrim s
  (checkRequired name required t).map fun _ => t

/-- transcription of lib/validate-helper.mjs; the hook result is the value
of the custom validation function at the inspected datum -/
def validateHelper (name : CName) (which : String) (res : Option HookRes) : Except Err Unit :=
  match res with
  | none => .ok ()
  | some .retTrue => .ok ()
  | some (.retStr s) => .error (.argumentInvalid name (.hookIssue s))
  | some .retOther => .error (.argumentInvalid name (.failedCustomValidation which))

def checkValidateInput (name : CName) (hook : Option (List Char → HookRes))
    (input : List Char) : Except Err Unit :=
  validateHelper name "input" (hook.map (· input))

def checkValidateValue {α : Type} (name : CName) (hook : Option (α → HookRes))
    (value : α) : Except Err Unit :=
  validateHelper name "value" (hook.map (· value))

/-- transcription of lib/check-max-min.mjs (the constraint-naming variant):
the max bound is checked first, then the min bound, comparisons via the
valueOf key -/
def checkMaxMin (name : CName) (key : α → ℚ) (maxB minB : Option α)
    (value : α) : Except Err Unit :=
  match maxB with
  | some mx =>
    if key mx < key value then .error (.argumentOutOfRange name .max)
    else
      match minB with
      | some mn =>
        if key value < key mn then .error (.argumentOutOfRange name .min)
        else .ok ()
      | none => .ok ()
  | none =>
    match minB with
    | some mn =>
      if key value < key mn then .error (.argumentOutOfRange name .min)
      else .ok ()
    | none => .ok ()

/-! ## The TimeOfDay validator (time-of-day.mjs) -/

structure TODValue where
  isEod : Bool
  hours : Int
  minutes : Int
  seconds : Int
  frac : ℚ
deriving DecidableEq, Repr

/-- valueOf of the TimeData object: seconds since midnight -/
def todValueOf (v : TODValue) : ℚ :=
  (v.hours * 60 * 60 + v.minutes * 60 + v.seconds : Int) + v.frac

structure TODOptions where
  name : CName := .plain ""
  required : Bool := false
  noEod : Bool := false
  max : Option (List Char) := none
  min : Option (List Char) := none
  validateInput : Option (List Char → HookRes) := none
  validateValue : Option (TODValue → HookRes) := none

/-- transcription of getValue from time-of-day.mjs -/
def todGetValue (isEod : Bool) (militaryTimeMatch : Option MilTimeMatch)
    (timeMatch : Option Time12Match) (twentyFourHourTimeMatch : Option Time24Match) :
    TODValue :=
  if isEod then
    { isEod := true, hours := 24, minutes := 0, seconds := 0, frac := 0 }
  else
    let hours :=
      match timeMatch with
      | some t =>
        let h := jsParseInt t.hh + (if lowerEq t.ampm ['p', 'm'] then 12 else 0)
        if h = 24 then 0 else h
      | none =>
        jsParseInt (firstTruthy []
          [militaryTimeMatch.bind (·.hh), twentyFourHourTimeMatch.bind (·.hh)])
    let minutes := jsParseInt (firstTruthy []
      [timeMatch.map (·.mm), militaryTimeMatch.bind (·.mm),
        twentyFourHourTimeMatch.bind (·.mm)])
    let seconds := jsParseInt (firstTruthy ['0']
      [timeMatch.bind (·.ss), twentyFourHourTimeMatch.bind (·.ss)])
    let frac := fracFromDigits (firstTruthy ['0']
      [timeMatch.bind (·.fs), twentyFourHourTimeMatch.bind (·.fs)])
    { isEod := false, hours := hours, minutes := minutes
      seconds := seconds, frac := frac }

/-- the body of TimeOfDay after the standard checks, on a nonempty trimmed
input; bound strings are parsed by the recursive call, whose options hold
only the derived name, so the recursion is unfolded into parseBound -/
def timeOfDayBody (opts : TODOptions)
    (parseBound : CName → List Char → Except Err (Option TODValue))
    (input : List Char) : Except Err (Option TODValue) :=
  let militaryTimeMatch := matchMilFull input
  let timeMatch := matchTime12Full input
  let twentyFourHourTimeMatch := matchTime24Full input
  if militaryTimeMatch = none && timeMatch = none
      && twentyFourHourTimeMatch = none then
    .error (.argumentInvalid opts.name .notRecognizedAsTime)
  else
    let isEod :=
      (militaryTimeMatch.bind (·.eod)).isSome
      || (twentyFourHourTimeMatch.bind (·.eod)).isSome
    if opts.noEod then .error (.argumentInvalid opts.name .eodDisallowedTOD)
    else
      (checkValidateInput opts.name opts.validateInput input).bind fun _ =>
      let value := todGetValue isEod militaryTimeMatch timeMatch twentyFourHourTimeMatch
      ((match opts.max with
       | none => .ok none
       | some ms => parseBound (.constraintOf opts.name .max) ms :
          Except Err (Option TODValue))).bind fun maxv =>
      ((match opts.min with
       | none => .ok none
       | some ms => parseBound (.constraintOf opts.name .min) ms :
          Except Err (Option TODValue))).bind fun minv =>
      (checkMaxMin opts.name todValueOf maxv minv value).bind fun _ =>
      (checkValidateValue opts.name opts.validateValue value).map fun _ =>
      some value

/-- the TimeOfDay pipeline with default options and the given name: the
shape of the recursive call that parses a bound string (its options carry
no bounds, flags or hooks, so its body needs no further recursion) -/
def timeOfDayPlain (name : CName) (input : JsInput) : Except Err (Option TODValue) :=
  (standardChecks name false input).bind fun s =>
  if s = [] then .ok none
  else timeOfDayBody { name := name } (fun _ _ => .ok none) s

/-- transcription of TimeOfDay from time-of-day.mjs -/
def TimeOfDay (opts : TODOptions) (input : JsInput) : Except Err (Option TODValue) :=
  (standardChecks opts.name opts.required input).bind fun s =>
  if s = [] then .ok none
  else timeOfDayBody opts (fun n ms => timeOfDayPlain n (.str ms)) s

/-! ## The DateTime validator (date-time.mjs) -/

inductive DTBound
  | str (s : List Char)
  | num (t : Int)
  | date (t : Int)
  | prebuilt (v : DTValue)
  | other

structure DTOptions where
  name : CName := .plain ""
  localTimezone : Option (List Char) := none
  noEod : Bool := false
  max : Option DTBound := none
  min : Option DTBound := none
  validateInput : Option (List Char → HookRes) := none
  validateValue : Option (DTValue → HookRes) := none

/-- grammar dispatch of DateTime: ISO 8601 first, an RFC 2822 match
overwrites it, otherwise the idiomatic processing runs -/
def dtParse (name : CName) (localTimezone : Option (List Char)) (localOff : Int)
    (s : List Char) : Except Err DTValue :=
  (match isoMatchFull s with
   | some m => (processISO8601DateTime name m localTimezone).map
       (fun t => some (createValue localOff t))
   | none => .ok none).bind fun v1 =>
  let v2 :=
    match matchRfc2822DateTimeFull s with
    | some m => some (createValue localOff (processRFC2822DateTime m localTimezone))
    | none => v1
  match v2 with
  | some v => .ok v
  | none => (processIdiomaticDateTime name s localTimezone).map (createValue localOff)

/-- the DateTime pipeline invoked on a bound string: its options carry only
the derived name, so no timezone default, flags, hooks or bounds apply -/
def dateTimePlain (name : CName) (localOff : Int) (input : JsInput) :
    Except Err DTValue :=
  (typeChecks name input).bind (dtParse name none localOff)

/-- normalization of a min or max bound into a Temporal Value, transcribed
from date-time.mjs: a string reparses under the derived constraint name, a
number and a native date go through the UTC field decomposition and the
canonical string, a pre-built value passes through, anything else is a
nonconvertible type -/
def normalizeBound (name : CName) (c : Constraint) (localOff : Int) :
    DTBound → Except Err DTValue
  | .str s => dateTimePlain (.constraintOf name c) localOff (.str s)
  | .num t =>
    let f := civilFromMillis t
    dateTimePlain (.plain "") localOff
      (.str (makeDateTimeString f.year f.month f.day f.hours f.minutes f.seconds
        ((f.ms : ℚ) / 1000) ['Z']))
  | .date t =>
    let f := civilFromMillis t
    dateTimePlain (.plain "") localOff
      (.str (makeDateTimeString f.year f.month f.day f.hours f.minutes f.seconds
        ((f.ms : ℚ) / 1000) ['Z']))
  | .prebuilt v => .ok v
  | .other => .error (.nonconvertibleType name c)

/-- transcription of DateTime from date-time.mjs (note: no standard checks
run, so there is no empty-string short-circuit and no required check) -/
def DateTime (opts : DTOptions) (localOff : Int) (input : JsInput) :
    Except Err DTValue :=
  (typeChecks opts.name input).bind fun s =>
  (dtParse opts.name opts.localTimezone localOff s).bind fun value =>
  if opts.noEod && value.tuple.isEod then
    .error (.argumentInvalid opts.name .eodDisallowedDT)
  else
    (checkValidateInput opts.name opts.validateInput s).bind fun _ =>
    ((match opts.max with
     | none => .ok none
     | some b => (normalizeBound opts.name .max localOff b).map some :
        Except Err (Option DTValue))).bind fun maxv =>
    ((match opts.min with
     | none => .ok none
     | some b => (normalizeBound opts.name .min localOff b).map some :
        Except Err (Option DTValue))).bind fun minv =>
    (checkMaxMin opts.name DTValue.ts maxv minv value).bind fun _ =>
    (checkValidateValue opts.name opts.validateValue value).map fun _ => value

/-! ## The ValidatedString validator (validated-string.mjs, the revision
built on the standard checks) -/

structure VSOptions where
  name : CName := .plain ""
  required : Bool := false
  after : Option (List Char) := none
  before : Option (List Char) := none
  endsWith : Option (List Char) := none
  startsWith : Option (List Char) := none
  matchRe : Option (List Char → Bool) := none
  maxLength : Option Nat := none
  minLength : Option Nat := none
  oneOf : Option (List (List Char)) := none
  validateInput : Option (List Char → HookRes) := none
  validateValue : Option (List Char → HookRes) := none

/-- strict lexicographic comparison by character code, the order used by
the JavaScript Array.prototype.sort on strings -/
def lexLt : List Char → List Char → Bool
  | [], [] => false
  | [], _ :: _ => true
  | _ :: _, [] => false
  | a :: as, b :: bs =>
    if a.toNat < b.toNat then true
    else if b.toNat < a.toNat then false
    else lexLt as bs

def vsGuard (name : CName) (cond : Bool) (issue : Issue) : Except Err Unit :=
  if cond then .error (.argumentInvalid name issue) else .ok ()

/-- the validation body of ValidatedString on a nonempty trimmed input -/
def validatedStringBody (opts : VSOptions) (input : List Char) :
    Except Err (List Char) :=
  (vsGuard opts.name
    (match opts.after with
     | some a => lexLt input a
     | none => false) .lexAfter).bind fun _ =>
  (vsGuard opts.name
    (match opts.before with
     | some b => lexLt b input
     | none => false) .lexBefore).bind fun _ =>
  (vsGuard opts.name
    (match opts.endsWith with
     | some e => !(e.isSuffixOf input)
     | none => false) .mustEndWith).bind fun _ =>
  (vsGuard opts.name
    (match opts.startsWith with
     | some e => !(e.isPrefixOf input)
     | none => false) .mustStartWith).bind fun _ =>
  (vsGuard opts.name
    (match opts.matchRe with
     | some re => !(re input)
     | none => false) .mustMatchRe).bind fun _ =>
  (vsGuard opts.name
    (match opts.maxLength with
     | some n => n < input.length
     | none => false) .maxLengthExceeded).bind fun _ =>
  (vsGuard opts.name
    (match opts.minLength with
     | some n => input.length < n
     | none => false) .minLengthNotMet).bind fun _ =>
  (vsGuard opts.name
    (match opts.oneOf with
     | some l => !(l.contains input)
     | none => false) .notOneOf).bind fun _ =>
  (checkValidateInput opts.name opts.validateInput input).bind fun _ =>
  (checkValidateValue opts.name opts.validateValue input).map fun _ => input

/-- transcription of ValidatedString (the standard-checks revision) -/
def ValidatedString (opts : VSOptions) (input : JsInput) :
    Except Err (Option (List Char)) :=
  (standardChecks opts.name opts.required input).bind fun s =>
  if s = [] then .ok none
  else (validatedStringBody opts s).map some

/-! ## Spec-side formulas

Definitions written from the words of the specification, used to compare
the source's computations against the claimed formulas. -/

/-- the AM/PM adjustment as the spec words it: add 12 for PM and 0 for AM
regardless of the nominal 12 value, then wrap 24 to 0 -/
def amPmAdjustedHour (nominal : Int) (isPM : Bool) : Int :=
  let h := nominal + (if isPM then 12 else 0)
  if h = 24 then 0 else h

/-- fractional part of a nonnegative quantity, as in the spec formula -/
def specFracPart (q : ℚ) : ℚ := q - (⌊q⌋ : ℚ)

/-- rounding to 5 decimal digits, as the spec words it -/
def specRound5 (q : ℚ) : ℚ := ((⌊q * 100000 + 1 / 2⌋ : Int) : ℚ) / 100000

/-! # Theorems -/

/-! ## Calendar lemmas -/

set_option maxHeartbeats 16000000 in
/-- correctness of the year-of-era computation inside civilFromDays -/
theorem yoe_correct (doe : Int) (h1 : 0 ≤ doe) (h2 : doe ≤ 146096) :
    0 ≤ (doe - doe / 1460 + doe / 36524 - doe / 146096) / 365 ∧
    (doe - doe / 1460 + doe / 36524 - doe / 146096) / 365 ≤ 399 ∧
    365 * ((doe - doe / 1460 + doe / 36524 - doe / 146096) / 365)
      + ((doe - doe / 1460 + doe / 36524 - doe / 146096) / 365) / 4
      - ((doe - doe / 1460 + doe / 36524 - doe / 146096) / 365) / 100 ≤ doe ∧
    doe - (365 * ((doe - doe / 1460 + doe / 36524 - doe / 146096) / 365)
      + ((doe - doe / 1460 + doe / 36524 - doe / 146096) / 365) / 4
      - ((doe - doe / 1460 + doe / 36524 - doe / 146096) / 365) / 100) ≤ 365 := by
  have hq1 : 0 ≤ doe / 1460 := by omega
  have hq2 : doe / 1460 ≤ 100 := by omega
  have hr1 : 0 ≤ doe / 36524 := by omega
  have hr2 : doe / 36524 ≤ 4 := by omega
  interval_cases h : doe / 1460 <;> (try omega) <;>
    interval_cases h2 : doe / 36524 <;> omega

/-- value of daysFromCivil on the decomposed shape produced by
civilFromDays -/
theorem daysFromCivil_decomp (era yoe mp d : Int) (h1 : 0 ≤ yoe) (h2 : yoe ≤ 399)
    (h3 : 0 ≤ mp) (h4 : mp ≤ 11) :
    daysFromCivil
      (if (if mp < 10 then mp + 3 else mp - 9) ≤ 2 then yoe + era * 400 + 1 else yoe + era * 400)
      (if mp < 10 then mp + 3 else mp - 9)
      d
    = era * 146097 + (yoe * 365 + yoe / 4 - yoe / 100) + ((153 * mp + 2) / 5 + d - 1) - 719468 := by
  have hera : (yoe + era * 400) / 400 = era := by omega
  by_cases h : mp < 10
  · have hm : ¬ (mp + 3 ≤ 2) := by omega
    simp only [if_pos h, if_neg hm, daysFromCivil]
    have h33 : mp + 3 - 3 = mp := by ring
    rw [h33, hera]
    have hc : yoe + era * 400 - era * 400 = yoe := by ring
    rw [hc]
    ring
  · have hm : mp - 9 ≤ 2 := by omega
    simp only [if_neg h, if_pos hm, daysFromCivil]
    have h99 : yoe + era * 400 + 1 - 1 = yoe + era * 400 := by ring
    rw [h99, hera]
    have h9 : mp - 9 + 9 = mp := by ring
    have hc : yoe + era * 400 - era * 400 = yoe := by ring
    rw [h9, hc]
    ring

set_option maxHeartbeats 1600000 in
/-- the civil date of an epoch day converts back to the same epoch day -/
theorem civil_days_roundtrip (z : Int) :
    daysFromCivil (civilFromDays z).1 (civilFromDays z).2.1 (civilFromDays z).2.2 = z := by
  simp only [civilFromDays]
  set doe := z + 719468 - (z + 719468) / 146097 * 146097 with hdoe
  have hdb1 : 0 ≤ doe := by omega
  have hdb2 : doe ≤ 146096 := by omega
  have hb := yoe_correct doe hdb1 hdb2
  set yoe := (doe - doe / 1460 + doe / 36524 - doe / 146096) / 365 with hyoe
  clear hyoe
  set doy := doe - (365 * yoe + yoe / 4 - yoe / 100) with hdoy
  have hdy1 : 0 ≤ doy := by omega
  have hdy2 : doy ≤ 365 := by omega
  set mp := (5 * doy + 2) / 153 with hmp
  have hmp1 : 0 ≤ mp := by omega
  have hmp2 : mp ≤ 11 := by omega
  have hmp3 : (153 * mp + 2) / 5 ≤ doy := by omega
  rw [daysFromCivil_decomp ((z + 719468) / 146097) yoe mp (doy - (153 * mp + 2) / 5 + 1)
    (by omega) (by omega) hmp1 hmp2]
  omega

set_option maxHeartbeats 1600000 in
/-- field bounds of the civil date of an epoch day in the range of the
JavaScript Date -/
theorem civilFromDays_bounds (z : Int) (hz1 : -719528 ≤ z) (hz2 : z ≤ 100000000) :
    0 ≤ (civilFromDays z).1 ∧ (civilFromDays z).1 ≤ 999999 ∧
    1 ≤ (civilFromDays z).2.1 ∧ (civilFromDays z).2.1 ≤ 12 ∧
    1 ≤ (civilFromDays z).2.2 ∧ (civilFromDays z).2.2 ≤ 31 := by
  simp only [civilFromDays]
  set doe := z + 719468 - (z + 719468) / 146097 * 146097 with hdoe
  have hdb1 : 0 ≤ doe := by omega
  have hdb2 : doe ≤ 146096 := by omega
  have hb := yoe_correct doe hdb1 hdb2
  set yoe := (doe - doe / 1460 + doe / 36524 - doe / 146096) / 365 with hyoe
  clear hyoe
  set doy := doe - (365 * yoe + yoe / 4 - yoe / 100) with hdoy
  have hdy1 : 0 ≤ doy := by omega
  have hdy2 : doy ≤ 365 := by omega
  set mp := (5 * doy + 2) / 153 with hmp
  have hmp1 : 0 ≤ mp := by omega
  have hmp2 : mp ≤ 11 := by omega
  have hmp3 : (153 * mp + 2) / 5 ≤ doy := by omega
  have hmp4 : doy - (153 * mp + 2) / 5 ≤ 30 := by omega
  have hera1 : -1 ≤ (z + 719468) / 146097 := by omega
  have hera2 : (z + 719468) / 146097 ≤ 700 := by omega
  split_ifs <;> omega

/-! ## Digit and formatting lemmas -/

theorem digitVal_le_of_isDigit {c : Char} (h : isDigitChar c = true) : digitVal c ≤ 9 := by
  simp [isDigitChar] at h
  simp [digitVal]
  omega

theorem parseNatDigits_general (ds : List Char) (a : Nat) :
    ds.foldl (fun x c => 10 * x + digitVal c) a = a * 10 ^ ds.length + parseNatDigits ds := by
  induction ds generalizing a with
  | nil => simp [parseNatDigits]
  | cons c tl ih =>
    have hp : parseNatDigits (c :: tl) = digitVal c * 10 ^ tl.length + parseNatDigits tl := by
      simp only [parseNatDigits, List.foldl_cons]
      rw [show 10 * 0 + digitVal c = digitVal c by ring, ih (digitVal c)]
      rfl
    simp only [List.foldl_cons, List.length_cons]
    rw [ih (10 * a + digitVal c), hp, pow_succ]
    simp only [parseNatDigits]
    ring

theorem parseNatDigits_append_single (ds : List Char) (c : Char) :
    parseNatDigits (ds ++ [c]) = 10 * parseNatDigits ds + digitVal c := by
  simp only [parseNatDigits, List.foldl_append, List.foldl_cons, List.foldl_nil]

theorem parseNatDigits_lt (ds : List Char) (h : ∀ c ∈ ds, isDigitChar c = true) :
    parseNatDigits ds < 10 ^ ds.length := by
  induction ds using List.reverseRecOn with
  | nil => simp [parseNatDigits]
  | append_singleton ds c ih =>
    rw [parseNatDigits_append_single]
    have h1 := ih (fun x hx => h x (by simp [hx]))
    have h2 := digitVal_le_of_isDigit (h c (by simp))
    rw [List.length_append, List.length_singleton, pow_succ]
    omega

theorem parseNatDigits_replicate_zero (k : Nat) (ds : List Char) :
    parseNatDigits (List.replicate k '0' ++ ds) = parseNatDigits ds := by
  induction k with
  | zero => simp
  | succ n ih =>
    have : List.replicate (n + 1) '0' ++ ds = '0' :: (List.replicate n '0' ++ ds) := by
      simp [List.replicate_succ]
    rw [this]
    simp only [parseNatDigits, List.foldl_cons] at ih ⊢
    simpa [digitVal] using ih

theorem jsParseInt_of_digits (ds : List Char) (h : ∀ c ∈ ds, isDigitChar c = true) :
    jsParseInt ds = (parseNatDigits ds : Int) := by
  match ds with
  | [] => rfl
  | c :: tl =>
    have hc := h c (by simp)
    have h1 : ¬ (c = '-') := by rintro rfl; simp [isDigitChar] at hc
    have h2 : ¬ (c = '+') := by rintro rfl; simp [isDigitChar] at hc
    simp [jsParseInt, h1, h2]

theorem digitVal_chr (d : Nat) (h : d < 10) : digitVal (Char.ofNat (48 + d)) = d := by
  interval_cases d <;> decide

theorem isDigit_chr (d : Nat) (h : d < 10) : isDigitChar (Char.ofNat (48 + d)) = true := by
  interval_cases d <;> decide

theorem natChars_digits (n : Nat) : ∀ c ∈ natChars n, isDigitChar c = true := by
  intro c hc
  simp only [natChars, List.mem_map, List.mem_reverse] at hc
  obtain ⟨d, hd, rfl⟩ := hc
  exact isDigit_chr d (Nat.digits_lt_base (by norm_num) hd)

theorem parseNatDigits_natChars (n : Nat) : parseNatDigits (natChars n) = n := by
  have key : ∀ L : List Nat, (∀ d ∈ L, d < 10) →
      parseNatDigits (L.reverse.map (fun d => Char.ofNat (48 + d))) = Nat.ofDigits 10 L := by
    intro L
    induction L with
    | nil => intro _; simp [parseNatDigits, Nat.ofDigits]
    | cons d tl ih =>
      intro hL
      have hd : d < 10 := hL d (by simp)
      have htl : ∀ x ∈ tl, x < 10 := fun x hx => hL x (by simp [hx])
      rw [List.reverse_cons, List.map_append, List.map_cons, List.map_nil,
        parseNatDigits_append_single, ih htl, Nat.ofDigits_cons, digitVal_chr d hd]
      ring
  have := key (Nat.digits 10 n) (fun d hd => Nat.digits_lt_base (by norm_num) hd)
  rw [natChars, this, Nat.ofDigits_digits]

theorem natChars_length_le (n k : Nat) (h : n < 10 ^ k) : (natChars n).length ≤ k := by
  simp only [natChars, List.length_map, List.length_reverse]
  rcases eq_or_ne n 0 with rfl | hn
  · simp
  · rw [Nat.digits_len 10 n (by norm_num) hn]
    have := Nat.log_lt_of_lt_pow hn h
    omega

theorem padZeros_length (n : Nat) (ds : List Char) :
    (padZeros n ds).length = max n ds.length := by
  simp [padZeros]
  omega

theorem padZeros_digits (n : Nat) (ds : List Char)
    (h : ∀ c ∈ ds, isDigitChar c = true) :
    ∀ c ∈ padZeros n ds, isDigitChar c = true := by
  intro c hc
  simp only [padZeros, List.mem_append, List.mem_replicate] at hc
  rcases hc with ⟨_, rfl⟩ | hc
  · decide
  · exact h c hc

theorem parseNatDigits_padZeros (n : Nat) (ds : List Char) :
    parseNatDigits (padZeros n ds) = parseNatDigits ds :=
  parseNatDigits_replicate_zero _ ds

/-- shape of a zero-padded nonnegative integer rendering -/
theorem padInt_spec (k : Nat) (z : Int) (h0 : 0 ≤ z) (h1 : z < 10 ^ k) :
    (padInt k z).length = k ∧ (∀ c ∈ padInt k z, isDigitChar c = true) ∧
      (parseNatDigits (padInt k z) : Int) = z := by
  have hz : ¬ (z < 0) := by omega
  have htn : (z.toNat : Int) = z := Int.toNat_of_nonneg h0
  have hcast : ((10 ^ k : Nat) : Int) = 10 ^ k := by push_cast; rfl
  have hlt : z.toNat < 10 ^ k := by omega
  constructor
  · rw [padInt, intChars, if_neg hz, padZeros_length]
    have := natChars_length_le z.toNat k hlt
    omega
  constructor
  · rw [padInt, intChars, if_neg hz]
    exact padZeros_digits _ _ (natChars_digits _)
  · rw [padInt, intChars, if_neg hz, parseNatDigits_padZeros,
      parseNatDigits_natChars]
    omega

/-- shape of a two-digit padded field -/
theorem padInt2_shape (z : Int) (h0 : 0 ≤ z) (h1 : z < 100) :
    ∃ a b, padInt 2 z = [a, b] ∧ isDigitChar a = true ∧ isDigitChar b = true ∧
      (parseNatDigits [a, b] : Int) = z := by
  obtain ⟨hlen, hdig, hval⟩ := padInt_spec 2 z h0 (by norm_num; omega)
  obtain ⟨a, b, hab⟩ := List.length_eq_two.mp hlen
  refine ⟨a, b, hab, ?_, ?_, ?_⟩
  · exact hdig a (by simp [hab])
  · exact hdig b (by simp [hab])
  · rw [← hab]; exact hval

/-! ## Trim lemmas -/

theorem jsTrim_eq_rdrop (l : List Char) :
    jsTrim l = List.rdropWhile isWsChar (List.dropWhile isWsChar l) := rfl

theorem dropWhile_rdropWhile_dropWhile (l : List Char) :
    List.dropWhile isWsChar (List.rdropWhile isWsChar (List.dropWhile isWsChar l))
      = List.rdropWhile isWsChar (List.dropWhile isWsChar l) := by
  rcases h : List.rdropWhile isWsChar (List.dropWhile isWsChar l) with _ | ⟨c, tl⟩
  · simp
  · have hpre := List.rdropWhile_prefix isWsChar (List.dropWhile isWsChar l)
    rw [h] at hpre
    obtain ⟨t, ht⟩ := hpre
    have h2 : List.dropWhile isWsChar l = c :: (tl ++ t) := by rw [← ht]; simp
    have h3 := List.head_dropWhile_not isWsChar l (by rw [h2]; simp)
    simp only [h2, List.head_cons, Bool.not_eq_true] at h3
    simp [List.dropWhile_cons, h3]

/-- the JavaScript trim is idempotent -/
theorem jsTrim_idem (l : List Char) : jsTrim (jsTrim l) = jsTrim l := by
  rw [jsTrim_eq_rdrop, jsTrim_eq_rdrop, dropWhile_rdropWhile_dropWhile,
    List.rdropWhile_idempotent]

/-! ## Scanning lemmas -/

theorem readDigits_append (ds rest : List Char) (h : ∀ c ∈ ds, isDigitChar c = true)
    (hr : ∀ c, rest.head? = some c → isDigitChar c = false) :
    readDigits (ds ++ rest) = (ds, rest) := by
  induction ds with
  | nil =>
    simp only [List.nil_append]
    cases rest with
    | nil => rfl
    | cons c cs =>
      have := hr c rfl
      simp [readDigits, this]
  | cons c tl ih =>
    have hc := h c (by simp)
    simp only [List.cons_append, readDigits, hc, if_pos]
    rw [show tl.append rest = tl ++ rest from rfl, ih (fun x hx => h x (by simp [hx]))]

theorem readDigitsLen_append (lo hi : Nat) (ds rest : List Char)
    (h : ∀ c ∈ ds, isDigitChar c = true)
    (hr : ∀ c, rest.head? = some c → isDigitChar c = false)
    (hlo : lo ≤ ds.length) (hhi : ds.length ≤ hi) :
    readDigitsLen lo hi (ds ++ rest) = some (ds, rest) := by
  rw [readDigitsLen, readDigits_append ds rest h hr]
  simp [hlo, hhi]

theorem read2d_cons (a b : Char) (rest : List Char)
    (ha : isDigitChar a = true) (hb : isDigitChar b = true) :
    read2d (a :: b :: rest) = some ([a, b], rest) := by
  simp [read2d, ha, hb]

/-! ## Fraction rendering lemma -/

theorem renderFrac_spec (q : ℚ) (h0 : 0 < q) (h1 : q < 1) (n₀ : ℕ) (hn₀ : n₀ ≤ 40)
    (hden : (q * 10 ^ n₀).den = 1) :
    ∃ ds : List Char, renderFrac q = '.' :: ds ∧ ds ≠ [] ∧ ds.length ≤ 1000 ∧
      (∀ c ∈ ds, isDigitChar c = true) ∧ fracFromDigits ds = q := by
  have hq0 : ¬ (q = 0) := by positivity
  have hsome : ((List.range 41).find? (fun n => (q * 10 ^ n).den = 1)).isSome := by
    rw [List.find?_isSome]
    refine ⟨n₀, by simp [List.mem_range]; omega, by simp [hden]⟩
  obtain ⟨n, hn⟩ := Option.isSome_iff_exists.mp hsome
  have hp : (q * 10 ^ n).den = 1 := by simpa using List.find?_some hn
  have hmem : n < 41 := by simpa [List.mem_range] using List.mem_of_find?_eq_some hn
  have hqn : ((q * 10 ^ n).num : ℚ) = q * 10 ^ n := by
    conv_rhs => rw [← Rat.num_div_den (q * 10 ^ n)]
    rw [hp]
    simp
  set k := (q * 10 ^ n).num with hk
  have hk1 : 0 < k := by
    rw [hk]
    exact Rat.num_pos.mpr (by positivity)
  have hklt : (k : ℚ) < 10 ^ n := by
    rw [hqn]
    calc q * 10 ^ n < 1 * 10 ^ n := by
          exact mul_lt_mul_of_pos_right h1 (by positivity)
    _ = 10 ^ n := by ring
  have hkz : k < (10 : ℤ) ^ n := by exact_mod_cast hklt
  have hcast : ((10 ^ n : ℕ) : ℤ) = (10 : ℤ) ^ n := by push_cast; rfl
  have hkltn : k.toNat < 10 ^ n := by omega
  have hn1 : 1 ≤ n := by
    by_contra hcon
    push_neg at hcon
    interval_cases n
    have : (k : ℚ) = q := by
      rw [hqn]
      ring
    have hklt1 : (k : ℚ) < 1 := by rw [this]; exact h1
    have : (1 : ℚ) ≤ (k : ℚ) := by exact_mod_cast hk1
    linarith
  have hlen : (natChars k.toNat).length ≤ n := natChars_length_le _ _ hkltn
  have hplen : (padZeros n (natChars k.toNat)).length = n := by
    rw [padZeros_length]
    omega
  refine ⟨padZeros n (natChars k.toNat), ?_, ?_, ?_, ?_, ?_⟩
  · rw [renderFrac, if_neg hq0, hn]
  · intro hnil
    rw [hnil] at hplen
    simp at hplen
    omega
  · omega
  · exact padZeros_digits _ _ (natChars_digits _)
  · rw [fracFromDigits, hplen, parseNatDigits_padZeros, parseNatDigits_natChars]
    have hknn : ((k.toNat : ℕ) : ℚ) = (k : ℚ) := by
      have := Int.toNat_of_nonneg (le_of_lt hk1)
      exact_mod_cast congrArg (fun z : ℤ => (z : ℚ)) this
    rw [hknn, hqn]
    field_simp

/-! ## Canonical string parsing lemmas -/

theorem padInt46_spec (z : Int) (h0 : 0 ≤ z) (h1 : z < 1000000) :
    4 ≤ (padInt 4 z).length ∧ (padInt 4 z).length ≤ 6 ∧
      (∀ c ∈ padInt 4 z, isDigitChar c = true) ∧
      (parseNatDigits (padInt 4 z) : Int) = z := by
  have hz : ¬ (z < 0) := by omega
  have htn : (z.toNat : Int) = z := Int.toNat_of_nonneg h0
  have hcast : ((10 ^ 6 : Nat) : Int) = 10 ^ 6 := by norm_num
  have hlt : z.toNat < 10 ^ 6 := by
    have hp : (10 : ℕ) ^ 6 = 1000000 := by norm_num
    omega
  have hlen := natChars_length_le z.toNat 6 hlt
  refine ⟨?_, ?_, ?_, ?_⟩
  · rw [padInt, intChars, if_neg hz, padZeros_length]
    omega
  · rw [padInt, intChars, if_neg hz, padZeros_length]
    omega
  · rw [padInt, intChars, if_neg hz]
    exact padZeros_digits _ _ (natChars_digits _)
  · rw [padInt, intChars, if_neg hz, parseNatDigits_padZeros,
      parseNatDigits_natChars]
    omega

theorem parseEod24_neg (a b e c d : Char) (r : List Char)
    (hab : ¬ (a = '2' ∧ b = '4')) :
    parseEod24 (a :: b :: e :: c :: d :: r) = none := by
  have : (decide (a = '2') && decide (b = '4') && decide (e = ':')
      && decide (c = '0') && decide (d = '0')) = false := by
    by_cases h1 : a = '2'
    · by_cases h2 : b = '4'
      · exact absurd ⟨h1, h2⟩ hab
      · simp [h1, h2]
    · simp [h1]
  simp [parseEod24, this]

/-- the ISO time part of a canonical string parses back to its fields -/
theorem isoTimePart_canonical (h mi s : Int) (FR rest : List Char)
    (hh : 0 ≤ h) (hh2 : h ≤ 23) (hmi : 0 ≤ mi) (hmi2 : mi ≤ 59)
    (hs : 0 ≤ s) (hs2 : s ≤ 59)
    (hrest : ∀ c, rest.head? = some c → (isDigitChar c = false ∧ c ≠ '.'))
    (hFR : FR = [] ∨ ∃ ds, FR = '.' :: ds ∧ ds ≠ [] ∧ ds.length ≤ 1000 ∧
      (∀ c ∈ ds, isDigitChar c = true)) :
    ∃ fsc : Option (List Char),
      isoTimePart (padInt 2 h ++ ':' :: (padInt 2 mi ++ ':' :: (padInt 2 s ++ (FR ++ rest))))
        = some ({ hours := some (padInt 2 h), minutes := some (padInt 2 mi)
                  seconds := some (padInt 2 s), fracSeconds := fsc }, rest) ∧
      ((FR = [] ∧ fsc = none) ∨ (∃ ds, FR = '.' :: ds ∧ fsc = some ds)) := by
  obtain ⟨a, b, hH, hHd1, hHd2, hHv⟩ := padInt2_shape h hh (by omega)
  obtain ⟨c, d, hMI, hMId1, hMId2, hMIv⟩ := padInt2_shape mi hmi (by omega)
  obtain ⟨e, f, hS, hSd1, hSd2, hSv⟩ := padInt2_shape s hs (by omega)
  have hab : ¬ (a = '2' ∧ b = '4') := by
    rintro ⟨rfl, rfl⟩
    have : parseNatDigits ['2', '4'] = 24 := by decide
    omega
  have hfrac : ∃ fsc : Option (List Char), readFrac (FR ++ rest) = (fsc, rest) ∧
      ((FR = [] ∧ fsc = none) ∨ (∃ ds, FR = '.' :: ds ∧ fsc = some ds)) := by
    rcases hFR with rfl | ⟨ds, rfl, hne, hlen, hdig⟩
    · refine ⟨none, ?_, Or.inl ⟨rfl, rfl⟩⟩
      simp only [List.nil_append]
      cases hr : rest with
      | nil => simp [readFrac]
      | cons c0 r0 =>
        have := (hrest c0 (by rw [hr]; rfl)).2
        simp [readFrac, this]
    · refine ⟨some ds, ?_, Or.inr ⟨ds, rfl, rfl⟩⟩
      have hlo : 1 ≤ ds.length := by
        cases ds with
        | nil => simp at hne
        | cons x xs => simp
      have := readDigitsLen_append 1 1000 ds rest hdig
        (fun c0 hc0 => (hrest c0 hc0).1) hlo hlen
      simp [List.cons_append, readFrac, this]
  obtain ⟨fsc, hfr, hfsc⟩ := hfrac
  refine ⟨fsc, ?_, hfsc⟩
  rw [hH, hMI, hS]
  simp only [List.cons_append, List.nil_append]
  have h23 : parseNatDigits [a, b] ≤ 23 := by omega
  have h59 : parseNatDigits [c, d] ≤ 59 := by omega
  have h59s : parseNatDigits [e, f] ≤ 59 := by omega
  simp only [isoTimePart, parseEod24_neg a b ':' c d _ hab,
    read2d_cons a b _ hHd1 hHd2, read2d_cons c d _ hMId1 hMId2,
    read2d_cons e f _ hSd1 hSd2, Option.some_bind, h23, h59, h59s, if_true,
    if_pos, hfr]
  simp only [if_neg (show ¬ (':' = '.') from by decide)]

/-- the canonical date-time string parses back to its fields through the
ISO 8601 matcher -/
theorem isoMatchFull_canonical (y mo d h mi s ms : Int)
    (hy : 0 ≤ y) (hy2 : y < 1000000)
    (hmo : 1 ≤ mo) (hmo2 : mo ≤ 12) (hd : 1 ≤ d) (hd2 : d ≤ 31)
    (hh : 0 ≤ h) (hh2 : h ≤ 23) (hmi : 0 ≤ mi) (hmi2 : mi ≤ 59)
    (hs : 0 ≤ s) (hs2 : s ≤ 59) (hms : 0 ≤ ms) (hms2 : ms ≤ 999) :
    ∃ fsc : Option (List Char),
      isoMatchFull (makeDateTimeString y mo d h mi s ((ms : ℚ) / 1000) ['Z'])
        = some { year := padInt 4 y, month := some (padInt 2 mo)
                 day := some (padInt 2 d), week := none, ordinal := none
                 eod := none, hours := some (padInt 2 h), fracHours := none
                 minutes := some (padInt 2 mi), fracMinutes := none
                 seconds := some (padInt 2 s), fracSeconds := fsc
                 tz := some ['Z'] } ∧
      ((ms = 0 ∧ fsc = none) ∨
        (∃ ds, fsc = some ds ∧ fracFromDigits ds = (ms : ℚ) / 1000)) := by
  have hFRfacts : (renderFrac ((ms : ℚ) / 1000) = [] ∧ ms = 0) ∨
      (∃ ds, renderFrac ((ms : ℚ) / 1000) = '.' :: ds ∧ ds ≠ [] ∧
        ds.length ≤ 1000 ∧ (∀ c ∈ ds, isDigitChar c = true) ∧
        fracFromDigits ds = (ms : ℚ) / 1000) := by
    rcases eq_or_ne ms 0 with rfl | hne
    · left
      constructor
      · simp [renderFrac]
      · rfl
    · right
      have hpos : (0 : ℚ) < (ms : ℚ) / 1000 := by
        have : (0 : ℚ) < (ms : ℚ) := by exact_mod_cast (by omega : 0 < ms)
        positivity
      have hlt1 : (ms : ℚ) / 1000 < 1 := by
        rw [div_lt_one (by norm_num)]
        exact_mod_cast (by omega : ms < 1000)
      have hden : ((ms : ℚ) / 1000 * 10 ^ 3).den = 1 := by
        have : (ms : ℚ) / 1000 * 10 ^ 3 = (ms : ℚ) := by ring
        rw [this, Rat.den_intCast]
      exact renderFrac_spec _ hpos hlt1 3 (by norm_num) hden
  obtain ⟨hY1, hY2, hYd, hYv⟩ := padInt46_spec y hy hy2
  have hYne : padInt 4 y ≠ [] := List.ne_nil_of_length_pos (by omega)
  obtain ⟨yc, Ytl, hYcons⟩ := List.exists_cons_of_ne_nil hYne
  have hycd : isDigitChar yc = true := hYd yc (by rw [hYcons]; simp)
  have hycp : ¬ (yc = '+') := by
    rintro rfl
    simp [isDigitChar] at hycd
  have hycm : ¬ (yc = '-') := by
    rintro rfl
    simp [isDigitChar] at hycd
  obtain ⟨m1, m2, hMO, hMOd1, hMOd2, hMOv⟩ := padInt2_shape mo (by omega) (by omega)
  obtain ⟨d1, d2, hD, hDd1, hDd2, hDv⟩ := padInt2_shape d (by omega) (by omega)
  have hrest : ∀ c, ([' ', 'Z'] : List Char).head? = some c →
      (isDigitChar c = false ∧ c ≠ '.') := by
    intro c hc
    simp at hc
    subst hc
    exact ⟨by decide, by decide⟩
  have hFRarg : renderFrac ((ms : ℚ) / 1000) = [] ∨
      ∃ ds, renderFrac ((ms : ℚ) / 1000) = '.' :: ds ∧ ds ≠ [] ∧
        ds.length ≤ 1000 ∧ (∀ c ∈ ds, isDigitChar c = true) := by
    rcases hFRfacts with ⟨hfr, _⟩ | ⟨ds, hfr, hne, hlen, hdig, _⟩
    · exact Or.inl hfr
    · exact Or.inr ⟨ds, hfr, hne, hlen, hdig⟩
  obtain ⟨fsc, htp, hfsc⟩ := isoTimePart_canonical h mi s
    (renderFrac ((ms : ℚ) / 1000)) [' ', 'Z'] hh hh2 hmi hmi2 hs hs2 hrest hFRarg
  refine ⟨fsc, ?_, ?_⟩
  · have hstr : makeDateTimeString y mo d h mi s ((ms : ℚ) / 1000) ['Z']
        = padInt 4 y ++ '-' :: (padInt 2 mo ++ '-' :: (padInt 2 d ++ ' ' :: (padInt 2 h ++ ':' :: (padInt 2 mi ++ ':' :: (padInt 2 s ++ (renderFrac ((ms : ℚ) / 1000) ++ [' ', 'Z'])))))) := by
      rw [makeDateTimeString]
      simp [List.cons_append, List.append_assoc]
    rw [hstr, hYcons]
    simp only [List.cons_append]
    have hydig : ∀ c ∈ yc :: Ytl, isDigitChar c = true := by
      rw [← hYcons]; exact hYd
    have hrd2 : readDigitsLen 4 6 (yc :: (Ytl ++ '-' :: (padInt 2 mo ++ '-' :: (padInt 2 d ++ ' ' :: (padInt 2 h ++ ':' :: (padInt 2 mi ++ ':' :: (padInt 2 s ++ (renderFrac ((ms : ℚ) / 1000) ++ [' ', 'Z']))))))))
        = some (yc :: Ytl, '-' :: (padInt 2 mo ++ '-' :: (padInt 2 d ++ ' ' :: (padInt 2 h ++ ':' :: (padInt 2 mi ++ ':' :: (padInt 2 s ++ (renderFrac ((ms : ℚ) / 1000) ++ [' ', 'Z']))))))) := by
      rw [show (yc :: (Ytl ++ '-' :: (padInt 2 mo ++ '-' :: (padInt 2 d ++ ' ' :: (padInt 2 h ++ ':' :: (padInt 2 mi ++ ':' :: (padInt 2 s ++ (renderFrac ((ms : ℚ) / 1000) ++ [' ', 'Z']))))))) : List Char)
          = (yc :: Ytl) ++ '-' :: (padInt 2 mo ++ '-' :: (padInt 2 d ++ ' ' :: (padInt 2 h ++ ':' :: (padInt 2 mi ++ ':' :: (padInt 2 s ++ (renderFrac ((ms : ℚ) / 1000) ++ [' ', 'Z'])))))) from by simp]
      exact readDigitsLen_append 4 6 _ _ hydig
        (by intro c0 hc0; simp at hc0; subst hc0; decide)
        (by rw [← hYcons]; omega) (by rw [← hYcons]; omega)
    simp only [isoMatchFull, hycp, hycm, decide_eq_true_eq, decide_eq_false,
      Bool.or_false, Bool.false_or, Bool.or_self, if_false, hrd2,
      Option.some_bind]
    rw [hMO]
    simp only [List.cons_append, List.nil_append]
    rw [read2d_cons m1 m2 _ hMOd1 hMOd2]
    simp only [Option.some_bind]
    rw [hD]
    simp only [List.cons_append, List.nil_append]
    rw [read2d_cons d1 d2 _ hDd1 hDd2]
    simp only [Option.some_bind]
    rw [htp]
    simp only [Option.some_bind]
    rw [show readOptTz [' ', 'Z'] = (some ['Z'], []) from rfl]
    simp [← hYcons, ← hMO, ← hD]
  · rcases hFRfacts with ⟨hfr, hms0⟩ | ⟨ds, hfr, _, _, _, hval⟩
    · rcases hfsc with ⟨_, hfn⟩ | ⟨ds, hcontra, _⟩
      · exact Or.inl ⟨hms0, hfn⟩
      · rw [hfr] at hcontra
        simp at hcontra
    · rcases hfsc with ⟨hfn, _⟩ | ⟨ds2, heq, hfs⟩
      · rw [hfr] at hfn
        simp at hfn
      · right
        refine ⟨ds2, hfs, ?_⟩
        rw [hfr] at heq
        simp at heq
        rw [← heq]
        exact hval

/-- the RFC 2822 matcher rejects canonical strings (they start with a
four-to-six digit year, not a one-or-two digit day) -/
theorem matchRfc2822_canonical_none (y mo d h mi s : Int) (frac : ℚ)
    (hy : 0 ≤ y) (hy2 : y < 1000000) :
    matchRfc2822DateTimeFull (makeDateTimeString y mo d h mi s frac ['Z']) = none := by
  obtain ⟨hY1, hY2, hYd, hYv⟩ := padInt46_spec y hy hy2
  have hstr : makeDateTimeString y mo d h mi s frac ['Z']
      = padInt 4 y ++ '-' :: (padInt 2 mo ++ '-' :: (padInt 2 d
        ++ ' ' :: (padInt 2 h ++ ':' :: (padInt 2 mi ++ ':' :: (padInt 2 s
        ++ (renderFrac frac ++ [' ', 'Z'])))))) := by
    rw [makeDateTimeString]
    simp [List.cons_append, List.append_assoc]
  have hrd : readDigitsLen 1 2 (makeDateTimeString y mo d h mi s frac ['Z']) = none := by
    rw [hstr, readDigitsLen, readDigits_append _ _ hYd
      (by intro c0 hc0; simp at hc0; subst hc0; decide)]
    simp
    omega
  rw [matchRfc2822DateTimeFull, hrd]
  rfl

/-- the full grammar dispatch on a canonical string produces the value with
the written fields and a zero timezone offset -/
theorem dtParse_canonical (name : CName) (ltz : Option (List Char)) (localOff : Int)
    (y mo d h mi s ms : Int)
    (hy : 0 ≤ y) (hy2 : y < 1000000)
    (hmo : 1 ≤ mo) (hmo2 : mo ≤ 12) (hd : 1 ≤ d) (hd2 : d ≤ 31)
    (hh : 0 ≤ h) (hh2 : h ≤ 23) (hmi : 0 ≤ mi) (hmi2 : mi ≤ 59)
    (hs : 0 ≤ s) (hs2 : s ≤ 59) (hms : 0 ≤ ms) (hms2 : ms ≤ 999) :
    dtParse name ltz localOff (makeDateTimeString y mo d h mi s ((ms : ℚ) / 1000) ['Z'])
      = .ok (createValue localOff
          { year := y, month := mo, day := d, isEod := false, hours := h
            minutes := mi, seconds := s, fracSeconds := (ms : ℚ) / 1000
            tzOffset := some 0 }) := by
  obtain ⟨fsc, hiso, hfsc⟩ :=
    isoMatchFull_canonical y mo d h mi s ms hy hy2 hmo hmo2 hd hd2 hh hh2
      hmi hmi2 hs hs2 hms hms2
  obtain ⟨hY1, hY2, hYd, hYv⟩ := padInt46_spec y hy hy2
  obtain ⟨m1, m2, hMO, hMOd1, hMOd2, hMOv⟩ := padInt2_shape mo (by omega) (by omega)
  obtain ⟨d1, d2, hD, hDd1, hDd2, hDv⟩ := padInt2_shape d (by omega) (by omega)
  obtain ⟨a1, a2, hH, hHd1, hHd2, hHv⟩ := padInt2_shape h hh (by omega)
  obtain ⟨b1, b2, hMI, hMId1, hMId2, hMIv⟩ := padInt2_shape mi hmi (by omega)
  obtain ⟨c1, c2, hS, hSd1, hSd2, hSv⟩ := padInt2_shape s hs (by omega)
  have hproc : processISO8601DateTime name
      { year := padInt 4 y, month := some (padInt 2 mo)
        day := some (padInt 2 d), week := none, ordinal := none
        eod := none, hours := some (padInt 2 h), fracHours := none
        minutes := some (padInt 2 mi), fracMinutes := none
        seconds := some (padInt 2 s), fracSeconds := fsc
        tz := some ['Z'] } ltz
      = .ok { year := y, month := mo, day := d, isEod := false, hours := h
              minutes := mi, seconds := s, fracSeconds := (ms : ℚ) / 1000
              tzOffset := some 0 } := by
    have hyear : jsParseInt (padInt 4 y) = y := by
      rw [jsParseInt_of_digits _ hYd, hYv]
    have hmonth : jsParseInt (padInt 2 mo) = mo := by
      rw [hMO, jsParseInt_of_digits _ (by
        intro c0 hc0
        simp at hc0
        rcases hc0 with rfl | rfl
        · exact hMOd1
        · exact hMOd2), hMOv]
    have hday : jsParseInt (padInt 2 d) = d := by
      rw [hD, jsParseInt_of_digits _ (by
        intro c0 hc0
        simp at hc0
        rcases hc0 with rfl | rfl
        · exact hDd1
        · exact hDd2), hDv]
    have hhv : jsParseInt (padInt 2 h) = h := by
      rw [hH, jsParseInt_of_digits _ (by
        intro c0 hc0
        simp at hc0
        rcases hc0 with rfl | rfl
        · exact hHd1
        · exact hHd2), hHv]
    have hmiv : jsParseInt (padInt 2 mi) = mi := by
      rw [hMI, jsParseInt_of_digits _ (by
        intro c0 hc0
        simp at hc0
        rcases hc0 with rfl | rfl
        · exact hMId1
        · exact hMId2), hMIv]
    have hsv : jsParseInt (padInt 2 s) = s := by
      rw [hS, jsParseInt_of_digits _ (by
        intro c0 hc0
        simp at hc0
        rcases hc0 with rfl | rfl
        · exact hSd1
        · exact hSd2), hSv]
    have hfrac : (fsc.map fracFromDigits).getD (0 : ℚ) = (ms : ℚ) / 1000 := by
      rcases hfsc with ⟨hms0, rfl⟩ | ⟨ds, rfl, hval⟩
      · subst hms0
        norm_num
      · simpa using hval
    simp only [processISO8601DateTime, parseCapture, jsNumOr, Option.isSome_none,
      Bool.false_eq_true, if_false, Option.map_some', Option.getD_some,
      Option.isSome_some, hyear, hmonth, hday, hhv, hmiv, hsv, hfrac]
    rw [if_neg (by omega : ¬ (mo = 0)), if_neg (by omega : ¬ (d = 0))]
    simp
    rfl
  simp only [dtParse, hiso, matchRfc2822_canonical_none y mo d h mi s _ hy hy2,
    hproc, Except.map, Except.bind]

/-- field bounds of the UTC decomposition inside the range of the
JavaScript Date -/
theorem civilFromMillis_bounds (t : Int) (h1 : -62167219200000 ≤ t)
    (h2 : t ≤ 8640000000000000) :
    0 ≤ (civilFromMillis t).year ∧ (civilFromMillis t).year < 1000000 ∧
    1 ≤ (civilFromMillis t).month ∧ (civilFromMillis t).month ≤ 12 ∧
    1 ≤ (civilFromMillis t).day ∧ (civilFromMillis t).day ≤ 31 ∧
    0 ≤ (civilFromMillis t).hours ∧ (civilFromMillis t).hours ≤ 23 ∧
    0 ≤ (civilFromMillis t).minutes ∧ (civilFromMillis t).minutes ≤ 59 ∧
    0 ≤ (civilFromMillis t).seconds ∧ (civilFromMillis t).seconds ≤ 59 ∧
    0 ≤ (civilFromMillis t).ms ∧ (civilFromMillis t).ms ≤ 999 := by
  have hdays1 : -719528 ≤ t / 86400000 := by omega
  have hdays2 : t / 86400000 ≤ 100000000 := by omega
  have hc := civilFromDays_bounds (t / 86400000) hdays1 hdays2
  simp only [civilFromMillis]
  refine ⟨by omega, by omega, by omega, by omega, by omega, by omega,
    by omega, by omega, by omega, by omega, by omega, by omega, by omega, by omega⟩

/-- the value rebuilt from the UTC fields of an instant has that instant as
its timestamp -/
theorem createValue_utc_ts (localOff t : Int) :
    (createValue localOff
      { year := (civilFromMillis t).year, month := (civilFromMillis t).month
        day := (civilFromMillis t).day, isEod := false
        hours := (civilFromMillis t).hours, minutes := (civilFromMillis t).minutes
        seconds := (civilFromMillis t).seconds
        fracSeconds := ((civilFromMillis t).ms : ℚ) / 1000
        tzOffset := some 0 }).ts = (t : ℚ) := by
  simp only [createValue, millisFromTuple, Option.getD_some]
  have hfr : (((civilFromMillis t).ms : ℚ) / 1000) * 1000 = ((civilFromMillis t).ms : ℚ) := by
    ring
  rw [hfr]
  have hint : (daysFromCivil (civilFromMillis t).year (civilFromMillis t).month
        (civilFromMillis t).day * 86400000
      + (civilFromMillis t).hours * 3600000 + (civilFromMillis t).minutes * 60000
      + (civilFromMillis t).seconds * 1000 - 0 * 60000)
      + (civilFromMillis t).ms = t := by
    simp only [civilFromMillis]
    rw [civil_days_roundtrip (t / 86400000)]
    omega
  exact_mod_cast hint

/-- a numeric or native-date bound normalizes to a value whose timestamp is
exactly the supplied instant -/
theorem normalizeBound_num_ok (name : CName) (c : Constraint) (localOff t : Int)
    (h1 : -62167219200000 ≤ t) (h2 : t ≤ 8640000000000000) :
    ∃ w, normalizeBound name c localOff (.num t) = .ok w ∧ w.ts = (t : ℚ) ∧
      normalizeBound name c localOff (.date t) = .ok w := by
  obtain ⟨hb1, hb2, hb3, hb4, hb5, hb6, hb7, hb8, hb9, hb10, hb11, hb12, hb13, hb14⟩ :=
    civilFromMillis_bounds t h1 h2
  have hparse := dtParse_canonical (.plain "") none localOff
    (civilFromMillis t).year (civilFromMillis t).month (civilFromMillis t).day
    (civilFromMillis t).hours (civilFromMillis t).minutes (civilFromMillis t).seconds
    (civilFromMillis t).ms hb1 hb2 hb3 hb4 hb5 hb6 hb7 hb8 hb9 hb10 hb11 hb12 hb13 hb14
  refine ⟨_, ?_, createValue_utc_ts localOff t, ?_⟩
  · simp only [normalizeBound, dateTimePlain, typeChecks, Except.bind]
    exact hparse
  · simp only [normalizeBound, dateTimePlain, typeChecks, Except.bind]
    exact hparse

/-- the max/min comparison depends on the bounds only through their
timestamps -/
theorem checkMaxMin_ts_congr (name : CName) (mx1 mx2 mn1 mn2 : Option DTValue)
    (v : DTValue) (hmx : mx1.map DTValue.ts = mx2.map DTValue.ts)
    (hmn : mn1.map DTValue.ts = mn2.map DTValue.ts) :
    checkMaxMin name DTValue.ts mx1 mn1 v = checkMaxMin name DTValue.ts mx2 mn2 v := by
  cases mx1 <;> cases mx2 <;> cases mn1 <;> cases mn2 <;> simp_all [checkMaxMin]

/-- DateTime results agree when two max bounds normalize to values with the
same timestamp -/
theorem DateTime_max_norm_congr (opts : DTOptions) (localOff : Int) (input : JsInput)
    (b1 b2 : DTBound) (w1 w2 : DTValue)
    (h1 : normalizeBound opts.name .max localOff b1 = .ok w1)
    (h2 : normalizeBound opts.name .max localOff b2 = .ok w2)
    (hts : w1.ts = w2.ts) :
    DateTime { opts with max := some b1 } localOff input
      = DateTime { opts with max := some b2 } localOff input := by
  have hcc : ∀ mnv value, checkMaxMin opts.name DTValue.ts (some w1) mnv value
      = checkMaxMin opts.name DTValue.ts (some w2) mnv value := by
    intro mnv value
    exact checkMaxMin_ts_congr opts.name (some w1) (some w2) mnv mnv value
      (by simp [hts]) rfl
  simp only [DateTime]
  rw [h1, h2]
  simp only [Except.map, Except.bind]
  simp only [hcc]

/-- DateTime results agree when two min bounds normalize to values with the
same timestamp -/
theorem DateTime_min_norm_congr (opts : DTOptions) (localOff : Int) (input : JsInput)
    (b1 b2 : DTBound) (w1 w2 : DTValue)
    (h1 : normalizeBound opts.name .min localOff b1 = .ok w1)
    (h2 : normalizeBound opts.name .min localOff b2 = .ok w2)
    (hts : w1.ts = w2.ts) :
    DateTime { opts with min := some b1 } localOff input
      = DateTime { opts with min := some b2 } localOff input := by
  have hcc : ∀ mxv value, checkMaxMin opts.name DTValue.ts mxv (some w1) value
      = checkMaxMin opts.name DTValue.ts mxv (some w2) value := by
    intro mxv value
    exact checkMaxMin_ts_congr opts.name mxv mxv (some w1) (some w2) value
      rfl (by simp [hts])
  simp only [DateTime]
  rw [h1, h2]
  simp only [Except.map, Except.bind]
  simp only [hcc]

/-! ## Except plumbing lemmas -/

theorem except_bind_ok {ε α β : Type} (x : Except ε α) (f : α → Except ε β) (y : β) :
    x.bind f = .ok y ↔ ∃ a, x = .ok a ∧ f a = .ok y := by
  cases x <;> simp [Except.bind]

theorem except_map_ok {ε α β : Type} (g : α → β) (x : Except ε α) (y : β) :
    Except.map g x = .ok y ↔ ∃ a, x = .ok a ∧ g a = y := by
  cases x <;> simp [Except.map]

/-! ## Fractional value lemmas -/

theorem fracFromDigits_nonneg (ds : List Char) : 0 ≤ fracFromDigits ds := by
  unfold fracFromDigits
  positivity

theorem fracFromDigits_lt_one (ds : List Char) (h : ∀ c ∈ ds, isDigitChar c = true) :
    fracFromDigits ds < 1 := by
  unfold fracFromDigits
  rw [div_lt_one (by positivity)]
  exact_mod_cast parseNatDigits_lt ds h

theorem jsTrunc_of_nonneg (q : ℚ) (h : 0 ≤ q) : jsTrunc q = ⌊q⌋ := if_pos h

theorem jsMod1_eq_specFracPart (q : ℚ) (h : 0 ≤ q) : jsMod1 q = specFracPart q := by
  simp [jsMod1, specFracPart, jsTrunc_of_nonneg q h]

theorem specFracPart_mem (q : ℚ) : 0 ≤ specFracPart q ∧ specFracPart q < 1 := by
  unfold specFracPart
  constructor
  · linarith [Int.floor_le q]
  · linarith [Int.lt_floor_add_one q]

theorem roundFracSeconds_eq_specRound5 (q : ℚ) (h : 0 ≤ q) :
    roundFracSeconds q = specRound5 (specFracPart q) := by
  simp [roundFracSeconds, specRound5, jsRound, jsMod1_eq_specFracPart q h,
    fracSecondsPrecision]

theorem roundFracSeconds_mem (q : ℚ) (h : 0 ≤ q) :
    0 ≤ roundFracSeconds q ∧ roundFracSeconds q ≤ 1 := by
  obtain ⟨h0, h1⟩ := specFracPart_mem q
  rw [roundFracSeconds_eq_specRound5 q h]
  unfold specRound5
  constructor
  · apply div_nonneg _ (by norm_num)
    have hf : (0 : ℤ) ≤ ⌊specFracPart q * 100000 + 1 / 2⌋ := by
      apply Int.floor_nonneg.mpr
      nlinarith
    exact_mod_cast hf
  · rw [div_le_one (by norm_num)]
    have hf : ⌊specFracPart q * 100000 + 1 / 2⌋ < 100001 := by
      apply Int.floor_lt.mpr
      push_cast
      nlinarith
    have hf2 : ⌊specFracPart q * 100000 + 1 / 2⌋ ≤ 100000 := by omega
    calc ((⌊specFracPart q * 100000 + 1 / 2⌋ : ℤ) : ℚ)
        ≤ ((100000 : ℤ) : ℚ) := by exact_mod_cast hf2
      _ = 100000 := by norm_num

/-! ## AM/PM indicator facts -/

theorem scanFirst_elim {α : Type} (tryAt : List Char → List Char → Option α)
    (P : α → Prop) (hP : ∀ pre rest m, tryAt pre rest = some m → P m) :
    ∀ pre l m, scanFirst tryAt pre l = some m → P m := by
  intro pre l
  induction l generalizing pre with
  | nil => intro m h; exact hP pre [] m h
  | cons c cs ih =>
    intro m h
    unfold scanFirst at h
    cases ht : tryAt pre (c :: cs) with
    | some r => rw [ht] at h; cases h; exact hP _ _ _ ht
    | none => rw [ht] at h; exact ih (c :: pre) m h

theorem parseTime12At_ampm (l : List Char) (m : Time12Match) (r : List Char)
    (h : parseTime12At l = some (m, r)) :
    (lowerEq m.ampm ['a', 'm'] || lowerEq m.ampm ['p', 'm']) = true := by
  unfold parseTime12At at h
  cases hp : parseTimeBase l with
  | none => rw [hp] at h; exact absurd h (by simp [Option.bind])
  | some p =>
    rw [hp] at h
    simp only [Option.some_bind] at h
    split at h
    · split at h
      · split at h
        · rename_i hcond
          cases h
          simp only [Bool.and_eq_true] at hcond
          exact hcond.1
        · exact absurd h (by simp)
      · exact absurd h (by simp)
    · exact absurd h (by simp)

theorem searchTime12_ampm (s : List Char) (m : Time12Match)
    (h : searchTime12 s = some m) :
    (lowerEq m.ampm ['a', 'm'] || lowerEq m.ampm ['p', 'm']) = true := by
  refine scanFirst_elim tryTime12At
    (fun m => (lowerEq m.ampm ['a', 'm'] || lowerEq m.ampm ['p', 'm']) = true)
    ?_ [] s m h
  intro pre rest m0 hm
  unfold tryTime12At at hm
  split at hm
  · cases hp : parseTime12At rest with
    | none => rw [hp] at hm; exact absurd hm (by simp)
    | some p =>
      rw [hp] at hm
      simp only [Option.map_some'] at hm
      cases hm
      simpa using parseTime12At_ampm rest p.1 p.2 (by rw [hp])
  · exact absurd hm (by simp)

theorem lowerEq_am_not_pm (x : List Char) (h : lowerEq x ['a', 'm'] = true) :
    lowerEq x ['p', 'm'] = false := by
  unfold lowerEq at *
  simp only [beq_iff_eq] at h
  simp [h]

/-- the source adds 0 for AM else 12; the spec adds 12 for PM else 0; the two
agree on every token the grammar can capture -/
theorem ampm_if_swap (x : List Char)
    (hd : (lowerEq x ['a', 'm'] || lowerEq x ['p', 'm']) = true) :
    (if lowerEq x ['a', 'm'] then (0 : Int) else 12)
      = (if lowerEq x ['p', 'm'] then (12 : Int) else 0) := by
  cases ham : lowerEq x ['a', 'm'] with
  | true => simp [lowerEq_am_not_pm x ham]
  | false =>
    have hpm : lowerEq x ['p', 'm'] = true := by simpa [ham] using hd
    simp [hpm]

/-! ## ISO 8601 extractor path lemmas -/

theorem iso_fracHours_path (name : CName) (m : Iso8601Match) (ltz : Option (List Char))
    (tup : TemporalTuple) (fh : List Char)
    (h : processISO8601DateTime name m ltz = .ok tup) (hfh : m.fracHours = some fh) :
    tup.minutes = jsTrunc (60 * fracFromDigits fh) ∧
    tup.seconds = jsTrunc (60 * jsMod1 (60 * fracFromDigits fh)) ∧
    tup.fracSeconds = roundFracSeconds (60 * jsMod1 (60 * fracFromDigits fh)) := by
  unfold processISO8601DateTime at h
  split at h
  · exact absurd h (by simp)
  · split at h
    · exact absurd h (by simp)
    · rw [Except.ok.injEq] at h
      subst h
      refine ⟨?_, ?_, ?_⟩ <;> simp [hfh]

theorem iso_fracMinutes_path (name : CName) (m : Iso8601Match) (ltz : Option (List Char))
    (tup : TemporalTuple) (fm mi : List Char)
    (h : processISO8601DateTime name m ltz = .ok tup)
    (hfh : m.fracHours = none) (hfm : m.fracMinutes = some fm)
    (hmi : m.minutes = some mi) :
    tup.minutes = parseCapture m.minutes ∧
    tup.seconds = jsTrunc (60 * fracFromDigits fm) ∧
    tup.fracSeconds = roundFracSeconds (60 * fracFromDigits fm) := by
  unfold processISO8601DateTime at h
  split at h
  · exact absurd h (by simp)
  · split at h
    · exact absurd h (by simp)
    · rw [Except.ok.injEq] at h
      subst h
      refine ⟨?_, ?_, ?_⟩ <;> simp [hfh, hfm, hmi]

theorem iso_direct_path (name : CName) (m : Iso8601Match) (ltz : Option (List Char))
    (tup : TemporalTuple) (ss : List Char)
    (h : processISO8601DateTime name m ltz = .ok tup)
    (hfh : m.fracHours = none) (hfm : m.fracMinutes = none) (hss : m.seconds = some ss) :
    tup.minutes = parseCapture m.minutes ∧
    tup.seconds = parseCapture m.seconds ∧
    tup.fracSeconds = (m.fracSeconds.map fracFromDigits).getD 0 := by
  unfold processISO8601DateTime at h
  split at h
  · exact absurd h (by simp)
  · split at h
    · exact absurd h (by simp)
    · rw [Except.ok.injEq] at h
      subst h
      refine ⟨?_, ?_, ?_⟩ <;> simp [hfh, hfm, hss]

/-! ## Idiomatic extractor path lemmas -/

/-- shape of the extractor's dispatch: three guarded errors followed by the
assembled tuple; an ok result is the assembled tuple -/
theorem ite_chain_ok {α ε : Type} {tup rec : α} {c1 c2 c3 : Prop}
    [Decidable c1] [Decidable c2] [Decidable c3] {e1 e2 e3 : ε}
    (h : (if c1 then Except.error e1 else if c2 then Except.error e2
      else if c3 then Except.error e3 else Except.ok rec) = Except.ok tup) :
    rec = tup := by
  split at h
  · exact absurd h (by simp)
  · split at h
    · exact absurd h (by simp)
    · split at h
      · exact absurd h (by simp)
      · exact (Except.ok.injEq _ _).mp h

theorem idiomatic_eod_true (name : CName) (s : List Char) (ltz : Option (List Char))
    (tup : TemporalTuple)
    (h : processIdiomaticDateTime name s ltz = .ok tup)
    (he : (((searchMilTime s).bind (·.eod)).isSome
      || ((searchTime24 s).bind (·.eod)).isSome) = true) :
    tup.isEod = true ∧ tup.hours = 24 ∧ tup.minutes = 0 ∧ tup.seconds = 0 ∧
      tup.fracSeconds = 0 := by
  simp only [processIdiomaticDateTime] at h
  rw [he] at h
  have hrec := ite_chain_ok h
  subst hrec
  refine ⟨rfl, ?_, ?_, ?_, ?_⟩ <;> simp

theorem idiomatic_eod_false (name : CName) (s : List Char) (ltz : Option (List Char))
    (tup : TemporalTuple)
    (h : processIdiomaticDateTime name s ltz = .ok tup)
    (he : (((searchMilTime s).bind (·.eod)).isSome
      || ((searchTime24 s).bind (·.eod)).isSome) = false) :
    tup.isEod = false ∧
    tup.fracSeconds = fracFromDigits (firstTruthy ['0']
      [(searchTime12 s).bind (·.fs), (searchTime24 s).bind (·.fs)]) := by
  simp only [processIdiomaticDateTime] at h
  rw [he] at h
  have hrec := ite_chain_ok h
  subst hrec
  refine ⟨rfl, ?_⟩
  simp

theorem idiomatic_hours_ampm (name : CName) (s : List Char) (ltz : Option (List Char))
    (t : Time12Match) (tup : TemporalTuple)
    (h12 : searchTime12 s = some t) (hmil : searchMilTime s = none)
    (h24 : searchTime24 s = none)
    (h : processIdiomaticDateTime name s ltz = .ok tup) :
    tup.hours = amPmAdjustedHour (jsParseInt t.hh) (lowerEq t.ampm ['p', 'm']) := by
  have hd := searchTime12_ampm s t h12
  simp only [processIdiomaticDateTime, h12, hmil, h24] at h
  have hrec := ite_chain_ok h
  subst hrec
  have hhh : jsParseInt (firstTruthy [] [none, some t.hh, none])
      = jsParseInt t.hh := by
    by_cases hx : t.hh = []
    · rw [hx]; rfl
    · simp [firstTruthy, hx]
  simp only [Option.none_bind, Option.some_bind, Option.isSome_none,
    Option.map_some', Option.map_none', Bool.or_self, Bool.false_eq_true, if_false]
  simp only [amPmAdjustedHour, hhh, ampm_if_swap t.ampm hd]

/-! ## TimeOfDay body lemmas -/

theorem todBody_ok_value (opts : TODOptions)
    (pb : CName → List Char → Except Err (Option TODValue)) (s : List Char)
    (v : TODValue) (h : timeOfDayBody opts pb s = .ok (some v)) :
    v = todGetValue (((matchMilFull s).bind (·.eod)).isSome
        || ((matchTime24Full s).bind (·.eod)).isSome)
      (matchMilFull s) (matchTime12Full s) (matchTime24Full s) := by
  simp only [timeOfDayBody] at h
  split at h
  · exact absurd h (by simp)
  · split at h
    · exact absurd h (by simp)
    · rw [except_bind_ok] at h
      obtain ⟨u1, hu1, h⟩ := h
      rw [except_bind_ok] at h
      obtain ⟨maxv, hmax, h⟩ := h
      rw [except_bind_ok] at h
      obtain ⟨minv, hmin, h⟩ := h
      rw [except_bind_ok] at h
      obtain ⟨u2, hu2, h⟩ := h
      rw [except_map_ok] at h
      obtain ⟨u3, hu3, h⟩ := h
      rw [Option.some.injEq] at h
      exact h.symm

theorem todBody_noEod_error (opts : TODOptions)
    (pb : CName → List Char → Except Err (Option TODValue)) (s : List Char)
    (hne : opts.noEod = true)
    (hrec : ¬(matchMilFull s = none ∧ matchTime12Full s = none
      ∧ matchTime24Full s = none)) :
    timeOfDayBody opts pb s = .error (.argumentInvalid opts.name .eodDisallowedTOD) := by
  simp only [timeOfDayBody, hne, if_true]
  split
  · rename_i hc
    exfalso
    simp only [Bool.and_eq_true, decide_eq_true_eq] at hc
    exact hrec ⟨hc.1.1, hc.1.2, hc.2⟩
  · rfl

/-! ## Standard-checks trim lemmas -/

theorem standardChecks_trim (name : CName) (req : Bool) (s : List Char) :
    standardChecks name req (.str (jsTrim s)) = standardChecks name req (.str s) := by
  simp only [standardChecks, typeChecks, Except.bind, jsTrim_idem]

theorem standardChecks_ok_trimmed (name : CName) (req : Bool) (input : JsInput)
    (s : List Char) (h : standardChecks name req input = .ok s) : jsTrim s = s := by
  unfold standardChecks at h
  rw [except_bind_ok] at h
  obtain ⟨s0, hs0, h⟩ := h
  rw [except_map_ok] at h
  obtain ⟨u, hu, h⟩ := h
  rw [← h, jsTrim_idem]

/-! ## DateTime noEod lemma -/

/-- when the parsed value is not the end-of-day sentinel, the noEod flag has
no influence on the result -/
theorem DateTime_noEod_irrelevant (opts : DTOptions) (localOff : Int) (input : JsInput)
    (hval : ∀ s value, typeChecks opts.name input = .ok s →
      dtParse opts.name opts.localTimezone localOff s = .ok value →
      value.tuple.isEod = false) :
    DateTime { opts with noEod := true } localOff input
      = DateTime { opts with noEod := false } localOff input := by
  have hn : ({ opts with noEod := true } : DTOptions).name = opts.name := rfl
  have hn2 : ({ opts with noEod := false } : DTOptions).name = opts.name := rfl
  have hl : ({ opts with noEod := true } : DTOptions).localTimezone
    = opts.localTimezone := rfl
  have hl2 : ({ opts with noEod := false } : DTOptions).localTimezone
    = opts.localTimezone := rfl
  have hx : ({ opts with noEod := true } : DTOptions).max = opts.max := rfl
  have hx2 : ({ opts with noEod := false } : DTOptions).max = opts.max := rfl
  have hi : ({ opts with noEod := true } : DTOptions).min = opts.min := rfl
  have hi2 : ({ opts with noEod := false } : DTOptions).min = opts.min := rfl
  have hv : ({ opts with noEod := true } : DTOptions).validateInput
    = opts.validateInput := rfl
  have hv2 : ({ opts with noEod := false } : DTOptions).validateInput
    = opts.validateInput := rfl
  have hw : ({ opts with noEod := true } : DTOptions).validateValue
    = opts.validateValue := rfl
  have hw2 : ({ opts with noEod := false } : DTOptions).validateValue
    = opts.validateValue := rfl
  simp only [DateTime, hn, hn2, hl, hl2, hx, hx2, hi, hi2, hv, hv2, hw, hw2]
  cases htc : typeChecks opts.name input with
  | error e => simp [Except.bind]
  | ok s =>
    simp only [Except.bind]
    cases hdt : dtParse opts.name opts.localTimezone localOff s with
    | error e => rfl
    | ok value =>
      have hEod := hval s value htc hdt
      simp [hEod]

/-! # Claim theorems -/

/-- C6: the standard-checks validators (TimeOfDay, ValidatedString) return no
value for an input that trims to the empty string, and a missing-argument
error when the required flag is set; but the DateTime validator runs no
standard checks, so the empty string falls through to the grammar dispatch
and throws the no-recognizable-time error instead of returning no value —
the claimed behavior ("in particular ... the date-time validator") does not
hold for DateTime. -/
theorem empty_input_handling :
    TimeOfDay { name := .plain "foo" } (.str []) = .ok none ∧
    ValidatedString { name := .plain "foo" } (.str []) = .ok none ∧
    TimeOfDay { name := .plain "foo" } (.str [' ', '\t']) = .ok none ∧
    TimeOfDay { name := .plain "foo", required := true } (.str [])
      = .error (.argumentMissing (.plain "foo") true) ∧
    DateTime { name := .plain "foo" } 0 (.str [])
      = .error (.argumentInvalid (.plain "foo") .noRecognizableTime) :=
  ⟨by decide, by decide, by decide, by decide, by decide⟩

/-- C8: the max/min range check passes exactly when the value's key lies
weakly between the supplied bounds (both inclusive), fails with an
out-of-range error naming max when the value exceeds the max bound (checked
first), and naming min when the value falls below the min bound; a value
equal to a bound passes. -/
theorem checkMaxMin_range_rule :
    (∀ {α : Type} (name : CName) (key : α → ℚ) (maxB minB : Option α) (v : α),
      checkMaxMin name key maxB minB v = .ok () ↔
        ((∀ mx, maxB = some mx → key v ≤ key mx) ∧
         (∀ mn, minB = some mn → key mn ≤ key v))) ∧
    (∀ {α : Type} (name : CName) (key : α → ℚ) (minB : Option α) (v mx : α),
      key mx < key v →
      checkMaxMin name key (some mx) minB v
        = .error (.argumentOutOfRange name .max)) ∧
    (∀ {α : Type} (name : CName) (key : α → ℚ) (maxB : Option α) (v mn : α),
      key v < key mn → (∀ mx, maxB = some mx → key v ≤ key mx) →
      checkMaxMin name key maxB (some mn) v
        = .error (.argumentOutOfRange name .min)) ∧
    (∀ (name : CName) (v : DTValue),
      checkMaxMin name DTValue.ts (some v) (some v) v = .ok ()) := by
  refine ⟨?_, ?_, ?_, ?_⟩
  · intro α name key maxB minB v
    cases maxB with
    | none =>
      cases minB with
      | none => simp [checkMaxMin]
      | some mn =>
        simp only [checkMaxMin]
        split_ifs with hlt
        · constructor
          · intro hh; exact absurd hh (by simp)
          · rintro ⟨h1, h2⟩; exact absurd (h2 mn rfl) (not_le.mpr hlt)
        · constructor
          · intro hh
            refine ⟨by simp, ?_⟩
            intro mn2 hmn2
            cases hmn2
            exact not_lt.mp hlt
          · intro hh; rfl
    | some mx =>
      cases minB with
      | none =>
        simp only [checkMaxMin]
        split_ifs with hlt
        · constructor
          · intro hh; exact absurd hh (by simp)
          · rintro ⟨h1, h2⟩; exact absurd (h1 mx rfl) (not_le.mpr hlt)
        · constructor
          · intro hh
            refine ⟨?_, by simp⟩
            intro mx2 hmx2
            cases hmx2
            exact not_lt.mp hlt
          · intro hh; rfl
      | some mn =>
        simp only [checkMaxMin]
        split_ifs with hlt1 hlt2
        · constructor
          · intro hh; exact absurd hh (by simp)
          · rintro ⟨h1, h2⟩; exact absurd (h1 mx rfl) (not_le.mpr hlt1)
        · constructor
          · intro hh; exact absurd hh (by simp)
          · rintro ⟨h1, h2⟩; exact absurd (h2 mn rfl) (not_le.mpr hlt2)
        · constructor
          · intro hh
            constructor
            · intro mx2 hmx2; cases hmx2; exact not_lt.mp hlt1
            · intro mn2 hmn2; cases hmn2; exact not_lt.mp hlt2
          · intro hh; rfl
  · intro α name key minB v mx h
    cases minB <;> simp [checkMaxMin, h]
  · intro α name key maxB v mn h1 h2
    cases maxB with
    | none => simp [checkMaxMin, h1]
    | some mx =>
      have hle := h2 mx rfl
      simp [checkMaxMin, not_lt.mpr hle, h1]
  · intro name v
    simp [checkMaxMin]

theorem checkMaxMin_range_rule_witness :
    checkMaxMin (.plain "") (fun q : ℚ => q) (some 2) none 3
      = .error (.argumentOutOfRange (.plain "") .max) :=
  checkMaxMin_range_rule.2.1 (.plain "") (fun q => q) none 3 2 (by norm_num)

/-- C10: validators built on the standard checks are trim-invariant: the
input is trimmed before anything else, so validating a string and validating
its trimmed form give the same result (shown for the generic standard
checks, TimeOfDay and ValidatedString), and any string the standard checks
hand onward is already trimmed, so matching, range checks, hooks and the
returned value all see only the trimmed text. -/
theorem trim_invariance :
    (∀ (name : CName) (req : Bool) (s : List Char),
      standardChecks name req (.str (jsTrim s)) = standardChecks name req (.str s)) ∧
    (∀ (name : CName) (req : Bool) (input : JsInput) (s : List Char),
      standardChecks name req input = .ok s → jsTrim s = s) ∧
    (∀ (opts : TODOptions) (s : List Char),
      TimeOfDay opts (.str (jsTrim s)) = TimeOfDay opts (.str s)) ∧
    (∀ (opts : VSOptions) (s : List Char),
      ValidatedString opts (.str (jsTrim s)) = ValidatedString opts (.str s)) := by
  refine ⟨standardChecks_trim, standardChecks_ok_trimmed, ?_, ?_⟩
  · intro opts s
    simp only [TimeOfDay, standardChecks_trim]
  · intro opts s
    simp only [ValidatedString, standardChecks_trim]

theorem trim_invariance_witness :
    standardChecks (.plain "") false (.str [' ', 'a', ' ']) = .ok ['a'] ∧
    jsTrim ['a'] = ['a'] :=
  ⟨by decide,
    trim_invariance.2.1 (.plain "") false (.str [' ', 'a', ' ']) ['a'] (by decide)⟩

/-- C1: for a 12-hour-clock match the stored hour is the nominal hour plus
12 when the indicator is PM and plus 0 when it is AM, with 24 wrapped to 0,
in both the time-of-day getValue and the idiomatic date-time extractor;
in particular 12:30 PM stores hour 0 and 12:30 AM stores hour 12 in both. -/
theorem ampm_hour_adjustment :
    (∀ (mil : Option MilTimeMatch) (t : Time12Match) (t24 : Option Time24Match),
      (todGetValue false mil (some t) t24).hours
        = amPmAdjustedHour (jsParseInt t.hh) (lowerEq t.ampm ['p', 'm'])) ∧
    (∀ (name : CName) (s : List Char) (ltz : Option (List Char))
        (t : Time12Match) (tup : TemporalTuple),
      searchTime12 s = some t → searchMilTime s = none → searchTime24 s = none →
      processIdiomaticDateTime name s ltz = .ok tup →
      tup.hours = amPmAdjustedHour (jsParseInt t.hh) (lowerEq t.ampm ['p', 'm'])) ∧
    (TimeOfDay {} (.str "12:30 PM".toList)).map (Option.map TODValue.hours)
      = .ok (some 0) ∧
    (TimeOfDay {} (.str "12:30 AM".toList)).map (Option.map TODValue.hours)
      = .ok (some 12) ∧
    (processIdiomaticDateTime (.plain "") "2 Jan 2024 12:30 PM".toList none).map
      TemporalTuple.hours = .ok 0 ∧
    (processIdiomaticDateTime (.plain "") "2 Jan 2024 12:30 AM".toList none).map
      TemporalTuple.hours = .ok 12 := by
  refine ⟨?_, ?_, by with_unfolding_all decide, by with_unfolding_all decide,
    by with_unfolding_all decide, by with_unfolding_all decide⟩
  · intro mil t t24
    simp [todGetValue, amPmAdjustedHour]
  · intro name s ltz t tup h12 hmil h24 h
    exact idiomatic_hours_ampm name s ltz t tup h12 hmil h24 h

theorem ampm_hour_adjustment_witness :
    ({ year := 2024, month := 1, day := 2, isEod := false, hours := 0,
       minutes := 30, seconds := 0, fracSeconds := 0,
       tzOffset := none } : TemporalTuple).hours
      = amPmAdjustedHour (jsParseInt ['1', '2']) (lowerEq ['P', 'M'] ['p', 'm']) :=
  ampm_hour_adjustment.2.1 (.plain "") "2 Jan 2024 12:30 PM".toList none
    { hh := ['1', '2'], mm := ['3', '0'], ss := none, fs := none
      ampm := ['P', 'M'], tz := none }
    { year := 2024, month := 1, day := 2, isEod := false, hours := 0,
      minutes := 30, seconds := 0, fracSeconds := 0, tzOffset := none }
    (by decide) (by decide) (by decide) (by with_unfolding_all decide)

/-- C2: a matched end-of-day sentinel forces isEod true, hours 24 and
minutes, seconds and fractional seconds 0, overriding any other captured
time fields, in both the idiomatic date-time extractor and the TimeOfDay
body; without a sentinel match isEod is false.  Concretely, 2400, 24:00 and
24:00:00 all produce the forced value, 23:59 does not, and the idiomatic
extractor forces the time fields of "2 Jan 2024 2400". -/
theorem eod_sentinel_forcing :
    (∀ (name : CName) (s : List Char) (ltz : Option (List Char))
        (tup : TemporalTuple),
      processIdiomaticDateTime name s ltz = .ok tup →
      ((((searchMilTime s).bind (·.eod)).isSome
          || ((searchTime24 s).bind (·.eod)).isSome) = true →
        tup.isEod = true ∧ tup.hours = 24 ∧ tup.minutes = 0 ∧ tup.seconds = 0 ∧
          tup.fracSeconds = 0) ∧
      ((((searchMilTime s).bind (·.eod)).isSome
          || ((searchTime24 s).bind (·.eod)).isSome) = false →
        tup.isEod = false)) ∧
    (∀ (opts : TODOptions) (pb : CName → List Char → Except Err (Option TODValue))
        (s : List Char) (v : TODValue),
      timeOfDayBody opts pb s = .ok (some v) →
      ((((matchMilFull s).bind (·.eod)).isSome
          || ((matchTime24Full s).bind (·.eod)).isSome) = true →
        v = { isEod := true, hours := 24, minutes := 0, seconds := 0, frac := 0 }) ∧
      ((((matchMilFull s).bind (·.eod)).isSome
          || ((matchTime24Full s).bind (·.eod)).isSome) = false →
        v.isEod = false)) ∧
    TimeOfDay {} (.str "2400".toList)
      = .ok (some { isEod := true, hours := 24, minutes := 0, seconds := 0, frac := 0 }) ∧
    TimeOfDay {} (.str "24:00".toList)
      = .ok (some { isEod := true, hours := 24, minutes := 0, seconds := 0, frac := 0 }) ∧
    TimeOfDay {} (.str "24:00:00".toList)
      = .ok (some { isEod := true, hours := 24, minutes := 0, seconds := 0, frac := 0 }) ∧
    TimeOfDay {} (.str "23:59".toList)
      = .ok (some { isEod := false, hours := 23, minutes := 59, seconds := 0, frac := 0 }) ∧
    processIdiomaticDateTime (.plain "") "2 Jan 2024 2400".toList none
      = .ok { year := 2024, month := 1, day := 2, isEod := true, hours := 24,
              minutes := 0, seconds := 0, fracSeconds := 0, tzOffset := none } := by
  refine ⟨?_, ?_, by with_unfolding_all decide, by with_unfolding_all decide,
    by with_unfolding_all decide, by with_unfolding_all decide,
    by with_unfolding_all decide⟩
  · intro name s ltz tup h
    constructor
    · intro he; exact idiomatic_eod_true name s ltz tup h he
    · intro he; exact (idiomatic_eod_false name s ltz tup h he).1
  · intro opts pb s v h
    have hv := todBody_ok_value opts pb s v h
    constructor
    · intro he
      rw [he] at hv
      simpa [todGetValue] using hv
    · intro he
      rw [he] at hv
      rw [hv]
      simp [todGetValue]

theorem eod_sentinel_forcing_witness :
    ({ year := 2024, month := 1, day := 2, isEod := true, hours := 24,
       minutes := 0, seconds := 0, fracSeconds := 0,
       tzOffset := none } : TemporalTuple).isEod = true ∧
    ({ year := 2024, month := 1, day := 2, isEod := true, hours := 24,
       minutes := 0, seconds := 0, fracSeconds := 0,
       tzOffset := none } : TemporalTuple).hours = 24 ∧
    ({ year := 2024, month := 1, day := 2, isEod := true, hours := 24,
       minutes := 0, seconds := 0, fracSeconds := 0,
       tzOffset := none } : TemporalTuple).minutes = 0 ∧
    ({ year := 2024, month := 1, day := 2, isEod := true, hours := 24,
       minutes := 0, seconds := 0, fracSeconds := 0,
       tzOffset := none } : TemporalTuple).seconds = 0 ∧
    ({ year := 2024, month := 1, day := 2, isEod := true, hours := 24,
       minutes := 0, seconds := 0, fracSeconds := 0,
       tzOffset := none } : TemporalTuple).fracSeconds = 0 :=
  (eod_sentinel_forcing.1 (.plain "") "2 Jan 2024 2400".toList none
    { year := 2024, month := 1, day := 2, isEod := true, hours := 24,
      minutes := 0, seconds := 0, fracSeconds := 0, tzOffset := none }
    (by with_unfolding_all decide)).1 (by decide)

/-- C3: the idiomatic extractor dispatches on match counts: no time grammar
match fails with the no-recognizable-time error; a time match with no date
grammar match fails with the no-recognizable-date error; more than one date
grammar match fails as ambiguous with the 4-plus-digit-year hint.
Concretely, the date-only "01/02/2024" fails with no-recognizable-time and
"1/1/1 12:30 PM" fails as ambiguous. -/
theorem idiomatic_dispatch_errors :
    (∀ (name : CName) (s : List Char) (ltz : Option (List Char)),
      searchMilTime s = none → searchTime12 s = none → searchTime24 s = none →
      processIdiomaticDateTime name s ltz
        = .error (.argumentInvalid name .noRecognizableTime)) ∧
    (∀ (name : CName) (s : List Char) (ltz : Option (List Char)),
      (if (searchMilTime s).isSome then 1 else 0)
          + (if (searchTime12 s).isSome then 1 else 0)
          + (if (searchTime24 s).isSome then 1 else 0) ≠ 0 →
      searchRfcDay s = none → searchUsDate s = none → searchIntlDate s = none →
      processIdiomaticDateTime name s ltz
        = .error (.argumentInvalid name .noRecognizableDate)) ∧
    (∀ (name : CName) (s : List Char) (ltz : Option (List Char)),
      (if (searchMilTime s).isSome then 1 else 0)
          + (if (searchTime12 s).isSome then 1 else 0)
          + (if (searchTime24 s).isSome then 1 else 0) ≠ 0 →
      1 < (if (searchRfcDay s).isSome then 1 else 0)
          + (if (searchUsDate s).isSome then 1 else 0)
          + (if (searchIntlDate s).isSome then 1 else 0) →
      processIdiomaticDateTime name s ltz
        = .error (.argumentInvalid name (.ambiguousDate true))) ∧
    processIdiomaticDateTime (.plain "") "01/02/2024".toList none
      = .error (.argumentInvalid (.plain "") .noRecognizableTime) ∧
    processIdiomaticDateTime (.plain "") "1/1/1 12:30 PM".toList none
      = .error (.argumentInvalid (.plain "") (.ambiguousDate true)) := by
  refine ⟨?_, ?_, ?_, by with_unfolding_all decide, by with_unfolding_all decide⟩
  · intro name s ltz h1 h2 h3
    simp [processIdiomaticDateTime, h1, h2, h3]
  · intro name s ltz hT h1 h2 h3
    simp only [processIdiomaticDateTime]
    rw [if_neg hT]
    simp [h1, h2, h3]
  · intro name s ltz hT hD
    simp only [processIdiomaticDateTime]
    rw [if_neg hT, if_neg (by omega), if_pos hD]

theorem idiomatic_dispatch_errors_witness :
    processIdiomaticDateTime (.plain "w") "01/02/2024".toList none
      = .error (.argumentInvalid (.plain "w") .noRecognizableTime) :=
  idiomatic_dispatch_errors.1 (.plain "w") "01/02/2024".toList none
    (by decide) (by decide) (by decide)

/-- C4 counterexample: directly captured ISO fractional seconds are stored
unrounded (".123456" keeps all six digits, which no round-to-5-digits rule
produces), and the fractional-hours conversion path can store exactly 1
(fracHours "00111111" gives realSeconds 3.999996, whose fraction rounds to
1), so the stored value does not always lie in [0,1). -/
theorem fracSeconds_rounding_counterexample :
    ((isoMatchFull "2024-01-02T12:30:40.123456Z".toList).map
        (fun m => (processISO8601DateTime (.plain "") m none).map
          TemporalTuple.fracSeconds))
      = some (.ok (fracFromDigits ['1', '2', '3', '4', '5', '6'])) ∧
    fracFromDigits ['1', '2', '3', '4', '5', '6'] = 1929 / 15625 ∧
    specRound5 (1929 / 15625) ≠ (1929 / 15625 : ℚ) ∧
    ((isoMatchFull "2024-01-02T12.00111111Z".toList).map
        (fun m => (processISO8601DateTime (.plain "") m none).map
          TemporalTuple.fracSeconds))
      = some (.ok (roundFracSeconds (60 * jsMod1 (60 * fracFromDigits
          ['0', '0', '1', '1', '1', '1', '1', '1'])))) ∧
    roundFracSeconds (60 * jsMod1 (60 * fracFromDigits
      ['0', '0', '1', '1', '1', '1', '1', '1'])) = 1 := by
  have hq2 : fracFromDigits ['0', '0', '1', '1', '1', '1', '1', '1']
      = 111111 / 100000000 := by
    have hp : parseNatDigits ['0', '0', '1', '1', '1', '1', '1', '1'] = 111111 := by
      decide
    simp only [fracFromDigits, hp, List.length_cons, List.length_nil]
    norm_num
  refine ⟨by with_unfolding_all rfl, ?_, ?_, by with_unfolding_all rfl, ?_⟩
  · have hp : parseNatDigits ['1', '2', '3', '4', '5', '6'] = 123456 := by decide
    simp only [fracFromDigits, hp, List.length_cons, List.length_nil]
    norm_num
  · unfold specRound5
    norm_num
  · rw [hq2]
    rw [show (60 : ℚ) * (111111 / 100000000) = 333333 / 5000000 by norm_num]
    have hm1 : jsMod1 (333333 / 5000000 : ℚ) = 333333 / 5000000 := by
      unfold jsMod1
      rw [jsTrunc_of_nonneg _ (by norm_num)]
      norm_num
    rw [hm1]
    rw [show (60 : ℚ) * (333333 / 5000000) = 999999 / 250000 by norm_num]
    unfold roundFracSeconds fracSecondsPrecision
    have hm2 : jsMod1 (999999 / 250000 : ℚ) = 249999 / 250000 := by
      unfold jsMod1
      rw [jsTrunc_of_nonneg _ (by norm_num)]
      norm_num
    rw [hm2]
    unfold jsRound
    norm_num

/-- C4 (corrected): the round-to-5-decimal-digits rule applies exactly on
the fractional-hours and fractional-minutes conversion paths of the ISO
extractor, where the stored value lies in [0,1] (1 included); directly
captured ISO fractional seconds and the idiomatic extractor's fraction are
stored unrounded, lying in [0,1) for digit-string captures. -/
theorem fracSeconds_rounding_rule :
    (∀ q : ℚ, 0 ≤ q →
      roundFracSeconds q = specRound5 (specFracPart q) ∧
      0 ≤ roundFracSeconds q ∧ roundFracSeconds q ≤ 1) ∧
    (∀ (name : CName) (m : Iso8601Match) (ltz : Option (List Char))
        (tup : TemporalTuple) (fh : List Char),
      processISO8601DateTime name m ltz = .ok tup → m.fracHours = some fh →
      tup.fracSeconds = roundFracSeconds (60 * jsMod1 (60 * fracFromDigits fh))) ∧
    (∀ (name : CName) (m : Iso8601Match) (ltz : Option (List Char))
        (tup : TemporalTuple) (fm mi : List Char),
      processISO8601DateTime name m ltz = .ok tup → m.fracHours = none →
      m.fracMinutes = some fm → m.minutes = some mi →
      tup.fracSeconds = roundFracSeconds (60 * fracFromDigits fm)) ∧
    (∀ (name : CName) (m : Iso8601Match) (ltz : Option (List Char))
        (tup : TemporalTuple) (ss : List Char),
      processISO8601DateTime name m ltz = .ok tup → m.fracHours = none →
      m.fracMinutes = none → m.seconds = some ss →
      tup.fracSeconds = (m.fracSeconds.map fracFromDigits).getD 0) ∧
    (∀ (name : CName) (s : List Char) (ltz : Option (List Char))
        (tup : TemporalTuple),
      processIdiomaticDateTime name s ltz = .ok tup →
      (((searchMilTime s).bind (·.eod)).isSome
        || ((searchTime24 s).bind (·.eod)).isSome) = false →
      tup.fracSeconds = fracFromDigits (firstTruthy ['0']
        [(searchTime12 s).bind (·.fs), (searchTime24 s).bind (·.fs)])) ∧
    (∀ ds : List Char, (∀ c ∈ ds, isDigitChar c = true) →
      0 ≤ fracFromDigits ds ∧ fracFromDigits ds < 1) := by
  refine ⟨?_, ?_, ?_, ?_, ?_, ?_⟩
  · intro q hq
    exact ⟨roundFracSeconds_eq_specRound5 q hq, roundFracSeconds_mem q hq⟩
  · intro name m ltz tup fh h hfh
    exact (iso_fracHours_path name m ltz tup fh h hfh).2.2
  · intro name m ltz tup fm mi h hfh hfm hmi
    exact (iso_fracMinutes_path name m ltz tup fm mi h hfh hfm hmi).2.2
  · intro name m ltz tup ss h hfh hfm hss
    exact (iso_direct_path name m ltz tup ss h hfh hfm hss).2.2
  · intro name s ltz tup h he
    exact (idiomatic_eod_false name s ltz tup h he).2
  · intro ds hds
    exact ⟨fracFromDigits_nonneg ds, fracFromDigits_lt_one ds hds⟩

theorem fracSeconds_rounding_rule_witness :
    (0 : ℚ) ≤ 1 / 2 ∧ roundFracSeconds (1 / 2) = specRound5 (specFracPart (1 / 2)) :=
  ⟨by norm_num, (fracSeconds_rounding_rule.1 (1 / 2) (by norm_num)).1⟩

/-- C5: the fractional-hours conversion computes minutes as the floor of 60
times the fractional hours, seconds as the floor of 60 times the remaining
fraction, and fractional seconds as the remaining fraction rounded to 5
decimal digits; analogously for fractional minutes; the terminating decimal
"2024-01-02T12.5Z" converts exactly to minutes 30, seconds 0, fraction 0. -/
theorem fractional_conversion_formulas :
    (∀ (name : CName) (m : Iso8601Match) (ltz : Option (List Char))
        (tup : TemporalTuple) (fh : List Char),
      processISO8601DateTime name m ltz = .ok tup → m.fracHours = some fh →
      tup.minutes = ⌊60 * fracFromDigits fh⌋ ∧
      tup.seconds = ⌊60 * specFracPart (60 * fracFromDigits fh)⌋ ∧
      tup.fracSeconds
        = specRound5 (specFracPart (60 * specFracPart (60 * fracFromDigits fh)))) ∧
    (∀ (name : CName) (m : Iso8601Match) (ltz : Option (List Char))
        (tup : TemporalTuple) (fm mi : List Char),
      processISO8601DateTime name m ltz = .ok tup → m.fracHours = none →
      m.fracMinutes = some fm → m.minutes = some mi →
      tup.minutes = parseCapture m.minutes ∧
      tup.seconds = ⌊60 * fracFromDigits fm⌋ ∧
      tup.fracSeconds = specRound5 (specFracPart (60 * fracFromDigits fm))) ∧
    ((isoMatchFull "2024-01-02T12.5Z".toList).map
        (fun m => processISO8601DateTime (.plain "") m none))
      = some (.ok
          { year := 2024, month := 1, day := 2, isEod := false, hours := 12,
            minutes := 30, seconds := 0, fracSeconds := 0,
            tzOffset := some 0 }) := by
  have hfr : ∀ fh : List Char, 0 ≤ 60 * fracFromDigits fh := fun fh =>
    mul_nonneg (by norm_num) (fracFromDigits_nonneg fh)
  have hmod : ∀ fh : List Char,
      jsMod1 (60 * fracFromDigits fh) = specFracPart (60 * fracFromDigits fh) :=
    fun fh => jsMod1_eq_specFracPart _ (hfr fh)
  have hmodnn : ∀ fh : List Char, 0 ≤ 60 * jsMod1 (60 * fracFromDigits fh) := by
    intro fh
    rw [hmod fh]
    exact mul_nonneg (by norm_num) (specFracPart_mem _).1
  refine ⟨?_, ?_, by with_unfolding_all decide⟩
  · intro name m ltz tup fh h hfh
    obtain ⟨h1, h2, h3⟩ := iso_fracHours_path name m ltz tup fh h hfh
    refine ⟨?_, ?_, ?_⟩
    · rw [h1, jsTrunc_of_nonneg _ (hfr fh)]
    · rw [h2, jsTrunc_of_nonneg _ (hmodnn fh), hmod fh]
    · rw [h3, roundFracSeconds_eq_specRound5 _ (hmodnn fh), hmod fh]
  · intro name m ltz tup fm mi h hfh hfm hmi
    obtain ⟨h1, h2, h3⟩ := iso_fracMinutes_path name m ltz tup fm mi h hfh hfm hmi
    refine ⟨h1, ?_, ?_⟩
    · rw [h2, jsTrunc_of_nonneg _ (hfr fm)]
    · rw [h3, roundFracSeconds_eq_specRound5 _ (hfr fm)]

theorem fractional_conversion_formulas_witness :
    ({ year := 2024, month := 1, day := 2, isEod := false, hours := 12,
       minutes := 30, seconds := 0, fracSeconds := 0,
       tzOffset := some 0 } : TemporalTuple).minutes
      = ⌊60 * fracFromDigits ['5']⌋ ∧
    ({ year := 2024, month := 1, day := 2, isEod := false, hours := 12,
       minutes := 30, seconds := 0, fracSeconds := 0,
       tzOffset := some 0 } : TemporalTuple).seconds
      = ⌊60 * specFracPart (60 * fracFromDigits ['5'])⌋ ∧
    ({ year := 2024, month := 1, day := 2, isEod := false, hours := 12,
       minutes := 30, seconds := 0, fracSeconds := 0,
       tzOffset := some 0 } : TemporalTuple).fracSeconds
      = specRound5 (specFracPart (60 * specFracPart (60 * fracFromDigits ['5']))) :=
  fractional_conversion_formulas.1 (.plain "")
    { year := ['2', '0', '2', '4'], month := some ['0', '1'], day := some ['0', '2'],
      week := none, ordinal := none, eod := none, hours := some ['1', '2'],
      fracHours := some ['5'], minutes := none, fracMinutes := none,
      seconds := none, fracSeconds := none, tz := some ['Z'] }
    none
    { year := 2024, month := 1, day := 2, isEod := false, hours := 12,
      minutes := 30, seconds := 0, fracSeconds := 0, tzOffset := some 0 }
    ['5'] (by with_unfolding_all decide) rfl

/-- C9: the claimed iff fails for the TimeOfDay validator: its noEod check
throws whenever the flag is set and the input is recognized as a time,
sentinel or not — "12:30" with noEod set throws the disallowed error though
it is not the sentinel.  The DateTime side follows the claim: with noEod set
it errors exactly on a parsed end-of-day sentinel, and on a non-sentinel
value the flag has no effect at all. -/
theorem noEod_flag_behavior :
    TimeOfDay { noEod := true } (.str ['1', '2', ':', '3', '0'])
      = .error (.argumentInvalid (.plain "") .eodDisallowedTOD) ∧
    (∀ (opts : TODOptions) (pb : CName → List Char → Except Err (Option TODValue))
        (s : List Char),
      opts.noEod = true →
      ¬(matchMilFull s = none ∧ matchTime12Full s = none
        ∧ matchTime24Full s = none) →
      timeOfDayBody opts pb s
        = .error (.argumentInvalid opts.name .eodDisallowedTOD)) ∧
    (∀ (opts : DTOptions) (localOff : Int) (input : JsInput),
      (∀ s value, typeChecks opts.name input = .ok s →
        dtParse opts.name opts.localTimezone localOff s = .ok value →
        value.tuple.isEod = false) →
      DateTime { opts with noEod := true } localOff input
        = DateTime { opts with noEod := false } localOff input) ∧
    DateTime { noEod := true } 0 (.str "1/2/2024 24:00".toList)
      = .error (.argumentInvalid (.plain "") .eodDisallowedDT) ∧
    (DateTime { noEod := true } 0 (.str "1/2/2024 12:30 Z".toList)).map
      (fun v => v.tuple.isEod) = .ok false :=
  ⟨by with_unfolding_all decide, todBody_noEod_error, DateTime_noEod_irrelevant,
    by with_unfolding_all decide, by with_unfolding_all decide⟩

theorem noEod_flag_behavior_witness :
    DateTime { ({} : DTOptions) with noEod := true } 0 (.num 5)
      = DateTime { ({} : DTOptions) with noEod := false } 0 (.num 5) := by
  apply noEod_flag_behavior.2.2.1 {} 0 (.num 5)
  intro s value hs hv
  simp [typeChecks] at hs

/-- C7: the min and max bounds of the date-time validator are
representation-independent: for an instant t in the range of the JavaScript
Date, a bound given as a parseable string denoting t, as the epoch number t,
as a native date for t, or as a pre-built value with timestamp t produces
the identical validation result on every input. -/
theorem bound_representation_independence
    (opts : DTOptions) (localOff : Int) (input : JsInput) (t : Int)
    (ht1 : -62167219200000 ≤ t) (ht2 : t ≤ 8640000000000000)
    (s smin : List Char) (w wmin : DTValue)
    (hs : dateTimePlain (.constraintOf opts.name .max) localOff (.str s) = .ok w)
    (hw : w.ts = (t : ℚ))
    (hsmin : dateTimePlain (.constraintOf opts.name .min) localOff (.str smin)
      = .ok wmin)
    (hwmin : wmin.ts = (t : ℚ))
    (v : DTValue) (hv : v.ts = (t : ℚ)) :
    (DateTime { opts with max := some (.str s) } localOff input
        = DateTime { opts with max := some (.num t) } localOff input ∧
      DateTime { opts with max := some (.date t) } localOff input
        = DateTime { opts with max := some (.num t) } localOff input ∧
      DateTime { opts with max := some (.prebuilt v) } localOff input
        = DateTime { opts with max := some (.num t) } localOff input) ∧
    (DateTime { opts with min := some (.str smin) } localOff input
        = DateTime { opts with min := some (.num t) } localOff input ∧
      DateTime { opts with min := some (.date t) } localOff input
        = DateTime { opts with min := some (.num t) } localOff input ∧
      DateTime { opts with min := some (.prebuilt v) } localOff input
        = DateTime { opts with min := some (.num t) } localOff input) := by
  obtain ⟨wn, hnum, hnts, hdate⟩ :=
    normalizeBound_num_ok opts.name .max localOff t ht1 ht2
  obtain ⟨wn2, hnum2, hnts2, hdate2⟩ :=
    normalizeBound_num_ok opts.name .min localOff t ht1 ht2
  constructor
  · refine ⟨?_, ?_, ?_⟩
    · exact DateTime_max_norm_congr opts localOff input (.str s) (.num t) w wn
        hs hnum (by rw [hw, hnts])
    · exact DateTime_max_norm_congr opts localOff input (.date t) (.num t) wn wn
        hdate hnum rfl
    · exact DateTime_max_norm_congr opts localOff input (.prebuilt v) (.num t) v wn
        rfl hnum (by rw [hv, hnts])
  · refine ⟨?_, ?_, ?_⟩
    · exact DateTime_min_norm_congr opts localOff input (.str smin) (.num t) wmin wn2
        hsmin hnum2 (by rw [hwmin, hnts2])
    · exact DateTime_min_norm_congr opts localOff input (.date t) (.num t) wn2 wn2
        hdate2 hnum2 rfl
    · exact DateTime_min_norm_congr opts localOff input (.prebuilt v) (.num t) v wn2
        rfl hnum2 (by rw [hv, hnts2])

theorem bound_representation_independence_witness :
    dateTimePlain (.constraintOf (.plain "") .max) 0
        (.str "1970-01-01T00:00Z".toList)
      = .ok (createValue 0
          { year := 1970, month := 1, day := 1, isEod := false, hours := 0,
            minutes := 0, seconds := 0, fracSeconds := 0, tzOffset := some 0 }) ∧
    (createValue 0
        { year := 1970, month := 1, day := 1, isEod := false, hours := 0,
          minutes := 0, seconds := 0, fracSeconds := 0,
          tzOffset := some 0 }).ts = ((0 : Int) : ℚ) ∧
    DateTime { ({} : DTOptions) with
        max := some (.str "1970-01-01T00:00Z".toList) } 0 (.str ['x'])
      = DateTime { ({} : DTOptions) with max := some (.num 0) } 0 (.str ['x']) :=
  ⟨by with_unfolding_all decide, by with_unfolding_all decide,
    (bound_representation_independence {} 0 (.str ['x']) 0
      (by norm_num) (by norm_num)
      "1970-01-01T00:00Z".toList "1970-01-01T00:00Z".toList
      (createValue 0
        { year := 1970, month := 1, day := 1, isEod := false, hours := 0,
          minutes := 0, seconds := 0, fracSeconds := 0, tzOffset := some 0 })
      (createValue 0
        { year := 1970, month := 1, day := 1, isEod := false, hours := 0,
          minutes := 0, seconds := 0, fracSeconds := 0, tzOffset := some 0 })
      (by with_unfolding_all decide) (by with_unfolding_all decide)
      (by with_unfolding_all decide) (by with_unfolding_all decide)
      (createValue 0
        { year := 1970, month := 1, day := 1, isEod := false, hours := 0,
          minutes := 0, seconds := 0, fracSeconds := 0, tzOffset := some 0 })
      (by with_unfolding_all decide)).1.1⟩

end StringInput
